import Mathlib

/-! Axis-aligned bounding boxes and the compacted BSP tree of the Serious Engine

A shallow embedding of `Sources/Engine/Math/AABBox.h` (template `AABBox<Type, iDimensions>`)
and of the array compaction, the persisted format and the line clipping declared in
`Sources/Engine/Templates/BSP.h`.

* `Type` is a type parameter `T` carrying the order (and, where the code computes, the
  arithmetic) the template body uses. Statements about comparisons hold for every linear
  order. Statements about arithmetic are made for the coordinate types whose arithmetic
  can be written down here: exact ordered fields, and the 32-bit machine integer `INDEX`,
  whose operations wrap around on overflow and whose division truncates toward zero. The
  rounding of `FLOAT` and `DOUBLE` is not modelled.
* `Vector<Type, iDimensions>` is a function `Fin iDimensions → T`; the source's 1-based
  index `v(i)`, `i = 1 .. iDimensions`, is the `Fin` index `i - 1`.
* A `for` loop over all dimensions that writes component `i` from components `i` only is a
  pointwise definition; a loop with an early `return` is `List.all` / `List.any` over
  `List.finRange iDimensions`, which visits the dimensions in the same increasing order.
* `UpperLimit(Type(0))` and `LowerLimit(Type(0))` live in `Engine/Math/Functions.h`, which
  is not part of the sources at hand; they are parameters of the definitions that use them.
-/

namespace SeriousEngine

/-- Modelled from the spec: `::Min` of `Engine/Math/Functions.h` (header absent), the
smaller of its two arguments, chosen by one comparison. -/
def Min {T : Type} [LinearOrder T] (a b : T) : T := if a > b then b else a

/-- Modelled from the spec: `::Max` of `Engine/Math/Functions.h` (header absent), the
larger of its two arguments, chosen by one comparison. -/
def Max {T : Type} [LinearOrder T] (a b : T) : T := if a < b then b else a

/-- Modelled from the spec: the 32-bit signed integer `INDEX` of the engine (`AABBox.h`
counts its loops with it; the header that declares it is absent), as a machine coordinate
type for the template: an integer from `-2^31` to `2^31 - 1`. -/
structure INDEX where
  val : Int
  inRange : -2147483648 ≤ val ∧ val < 2147483648

namespace INDEX

/-- The value of a machine operation whose exact result is `x`: reduced modulo `2^32` into
the range of `INDEX` (the result wraps around on overflow). -/
def wrap (x : Int) : INDEX :=
  ⟨(x + 2147483648) % 4294967296 - 2147483648, by omega⟩

/-- The exact result `x` of an operation fits into an `INDEX`: no overflow. -/
def Fits (x : Int) : Prop := -2147483648 ≤ x ∧ x < 2147483648

instance (x : Int) : Decidable (Fits x) :=
  inferInstanceAs (Decidable (-2147483648 ≤ x ∧ x < 2147483648))

/-- Comparison of machine integers is comparison of their values. -/
instance : LinearOrder INDEX := LinearOrder.lift' INDEX.val (by
  intro a b h
  cases a
  cases b
  cases h
  rfl)

/-- Machine addition. -/
instance : Add INDEX := ⟨fun a b => wrap (a.val + b.val)⟩

/-- Machine subtraction. -/
instance : Sub INDEX := ⟨fun a b => wrap (a.val - b.val)⟩

/-- Machine division: the quotient is truncated toward zero. -/
instance : Div INDEX := ⟨fun a b => wrap (a.val.tdiv b.val)⟩

/-- Integer literals, and the conversion `(Type)2`. -/
instance (n : Nat) : OfNat INDEX n := ⟨wrap n⟩

end INDEX

/-- The type `Vector<Type, iDimensions>`: one coordinate per dimension. -/
abbrev Vector (T : Type) (iDimensions : Nat) : Type := Fin iDimensions → T

/-- The class `AABBox<Type, iDimensions>`: vector of min coordinates, vector of max
coordinates. -/
structure AABBox (T : Type) (iDimensions : Nat) where
  minvect : Vector T iDimensions
  maxvect : Vector T iDimensions

namespace AABBox

variable {T : Type} {iDimensions : Nat}

/-- The method `SetToNormalizedEmpty`: every min coordinate becomes `UpperLimit`, every max
coordinate `LowerLimit`. The old contents are overwritten, so the result depends on the
limits only. -/
def SetToNormalizedEmpty (UpperLimit LowerLimit : T) : AABBox T iDimensions :=
  { minvect := fun _ => UpperLimit, maxvect := fun _ => LowerLimit }

/-- The default constructor `AABBox()`: calls `SetToNormalizedEmpty`. -/
def default (UpperLimit LowerLimit : T) : AABBox T iDimensions :=
  SetToNormalizedEmpty UpperLimit LowerLimit

/-- The constructor `AABBox(vPoint)` for a one-point bounding box. -/
def ofPoint (vPoint : Vector T iDimensions) : AABBox T iDimensions :=
  { minvect := fun i => vPoint i, maxvect := fun i => vPoint i }

/-- The constructor `AABBox(vPoint1, vPoint2)` for two diagonal points. -/
def ofPoints [LinearOrder T] (vPoint1 vPoint2 : Vector T iDimensions) :
    AABBox T iDimensions :=
  { minvect := fun i => Min (vPoint1 i) (vPoint2 i)
    maxvect := fun i => Max (vPoint1 i) (vPoint2 i) }

/-- The operator `==`: both vectors compare equal, coordinate by coordinate. -/
def operatorEq [DecidableEq T] (box1 box2 : AABBox T iDimensions) : Bool :=
  decide (box1.minvect = box2.minvect) && decide (box1.maxvect = box2.maxvect)

/-- The operator `<=`: FALSE at the first dimension whose span is not contained in the
span of `b`, TRUE when the loop runs to its end. -/
def operatorLe [LinearOrder T] (a b : AABBox T iDimensions) : Bool :=
  (List.finRange iDimensions).all fun i =>
    !(decide (a.minvect i < b.minvect i) || decide (a.maxvect i > b.maxvect i))

/-- The operator `>=`: `return b<=*this;`. -/
def operatorGe [LinearOrder T] (a b : AABBox T iDimensions) : Bool :=
  operatorLe b a

/-- The method `IsEmpty`: TRUE at the first dimension with `minvect(i) > maxvect(i)`,
FALSE when the loop runs to its end. -/
def IsEmpty [LinearOrder T] (a : AABBox T iDimensions) : Bool :=
  (List.finRange iDimensions).any fun i => decide (a.minvect i > a.maxvect i)

/-- The method `Center`: `(maxvect + minvect)/(Type)2`. -/
def Center [Add T] [Div T] [OfNat T 2] (a : AABBox T iDimensions) : Vector T iDimensions :=
  fun i => (a.maxvect i + a.minvect i) / 2

/-- The method `Size`: `maxvect - minvect`. -/
def Size [Sub T] (a : AABBox T iDimensions) : Vector T iDimensions :=
  fun i => a.maxvect i - a.minvect i

/-- The accessor `Min()`, named after what it returns to keep `SeriousEngine.Min` free. -/
def getMin (a : AABBox T iDimensions) : Vector T iDimensions := a.minvect

/-- The accessor `Max()`. -/
def getMax (a : AABBox T iDimensions) : Vector T iDimensions := a.maxvect

/-- The operator `|=`, bounding box for union; the value is the updated `*this`. -/
def operatorOrAssign [LinearOrder T] (a b : AABBox T iDimensions) : AABBox T iDimensions :=
  { minvect := fun i => Min (a.minvect i) (b.minvect i)
    maxvect := fun i => Max (a.maxvect i) (b.maxvect i) }

/-- The operator `&=`, bounding box for intersection: the coordinate loop, then
`if ( IsEmpty() ) SetToNormalizedEmpty();`. -/
def operatorAndAssign [LinearOrder T] (UpperLimit LowerLimit : T)
    (a b : AABBox T iDimensions) : AABBox T iDimensions :=
  let r : AABBox T iDimensions :=
    { minvect := fun i => Max (a.minvect i) (b.minvect i)
      maxvect := fun i => Min (a.maxvect i) (b.maxvect i) }
  if r.IsEmpty then SetToNormalizedEmpty UpperLimit LowerLimit else r

/-- The operator `&`: `return AABBox(*this)&=b;`. -/
def operatorAnd [LinearOrder T] (UpperLimit LowerLimit : T)
    (a b : AABBox T iDimensions) : AABBox T iDimensions :=
  operatorAndAssign UpperLimit LowerLimit a b

/-- The method `HasContactWith(b)`: FALSE at the first dimension whose spans have no
contact, TRUE otherwise. -/
def HasContactWith [LinearOrder T] (a b : AABBox T iDimensions) : Bool :=
  (List.finRange iDimensions).all fun i =>
    !(decide (a.maxvect i < b.minvect i) || decide (a.minvect i > b.maxvect i))

/-- The method `TouchesSphere(vSphereCenter, fSphereRadius)`: FALSE at the first dimension
in which the span of the box and the span `center ± radius` have no contact. -/
def TouchesSphere [LinearOrder T] [Add T] [Sub T] (a : AABBox T iDimensions)
    (vSphereCenter : Vector T iDimensions) (fSphereRadius : T) : Bool :=
  (List.finRange iDimensions).all fun i =>
    !(decide (vSphereCenter i + fSphereRadius < a.minvect i)
      || decide (vSphereCenter i - fSphereRadius > a.maxvect i))

/-- The method `Expand(tEpsilon)`: `maxvect(i)+=tEpsilon; minvect(i)-=tEpsilon;` in every
dimension; the value is the updated box. -/
def Expand [Add T] [Sub T] (a : AABBox T iDimensions) (tEpsilon : T) :
    AABBox T iDimensions :=
  { minvect := fun i => a.minvect i - tEpsilon
    maxvect := fun i => a.maxvect i + tEpsilon }

/-- A point lies in the box: `Min(i) <= p(i) <= Max(i)` on all axes. -/
def Contains [LE T] (a : AABBox T iDimensions) (p : Vector T iDimensions) : Prop :=
  ∀ i, a.minvect i ≤ p i ∧ p i ≤ a.maxvect i

/-- All coordinates of the box lie between `LowerLimit` and `UpperLimit`. -/
def WithinLimits [LE T] (a : AABBox T iDimensions) (UpperLimit LowerLimit : T) : Prop :=
  ∀ i, LowerLimit ≤ a.minvect i ∧ a.minvect i ≤ UpperLimit
    ∧ LowerLimit ≤ a.maxvect i ∧ a.maxvect i ≤ UpperLimit

instance [LE T] [DecidableRel (fun x y : T => x ≤ y)] (a : AABBox T iDimensions)
    (UpperLimit LowerLimit : T) : Decidable (a.WithinLimits UpperLimit LowerLimit) :=
  inferInstanceAs (Decidable (∀ i, LowerLimit ≤ a.minvect i ∧ a.minvect i ≤ UpperLimit
    ∧ LowerLimit ≤ a.maxvect i ∧ a.maxvect i ≤ UpperLimit))

end AABBox

/-! ## The BSP tree and its compaction into an array

`Sources/Engine/Templates/BSP.h` declares `BSPTree` with its node array `bt_abnNodes`, its
root `bt_pbnRoot`, and the methods `CountNodes`, `MoveSubTreeToArray` and
`MoveNodesToArray`; their bodies and the class `BSPNode` are not part of the sources at
hand. They are modelled on the design document: its data model (section 3), the array
compactor (section 4.2) and the reference tags of the persisted format (section 6).
-/

namespace BSP

/-- Modelled from the spec: the class `BSPNode` while the tree is a pointer graph (its
definition is absent). A node holds its splitting plane, the coplanar polygons and the
owned front and back subtrees; a null subtree is an empty half-space recorded with its
leaf classification, outside the solid (`leafEmpty`) or inside it (`leafSolid`). -/
inductive BSPNode (Plane Polygon : Type) where
  | leafEmpty : BSPNode Plane Polygon
  | leafSolid : BSPNode Plane Polygon
  | branch (plane : Plane) (coplanarPolygons : List Polygon)
      (front back : BSPNode Plane Polygon) : BSPNode Plane Polygon
  deriving DecidableEq, Repr

/-- Modelled from the spec: a node reference after compaction (no declaration in the
sources), one of the tagged values `LEAF_EMPTY`, `LEAF_SOLID`, `NODE_INDEX(i)`. -/
inductive NodeRef where
  | LEAF_EMPTY : NodeRef
  | LEAF_SOLID : NodeRef
  | NODE_INDEX (i : Nat) : NodeRef
  deriving DecidableEq, Repr

/-- Modelled from the spec: a node as stored in `bt_abnNodes` (element type absent from the
sources): plane, coplanar polygons, and the front and back references as array indices. -/
structure ArrayNode (Plane Polygon : Type) where
  plane : Plane
  coplanarPolygons : List Polygon
  front : NodeRef
  back : NodeRef
  deriving DecidableEq, Repr

/-- The class `BSPTree` after compaction: `bt_abnNodes`, where all nodes are stored
together, and the root `bt_pbnRoot`, which then refers into that array. -/
structure BSPTree (Plane Polygon : Type) where
  bt_abnNodes : List (ArrayNode Plane Polygon)
  bt_pbnRoot : NodeRef
  deriving DecidableEq, Repr

variable {Plane Polygon : Type}

/-- Modelled from the spec: `BSPTree::CountNodes` (body absent), a pure traversal size
count of the nodes of a subtree; a null subtree has none. -/
def CountNodes : BSPNode Plane Polygon → Nat
  | .leafEmpty => 0
  | .leafSolid => 0
  | .branch _ _ front back => 1 + CountNodes front + CountNodes back

/-- Modelled from the spec: `BSPTree::MoveSubTreeToArray` (body absent). One traversal that
appends each visited node to the array in pre-order: the node takes the next free position,
then the front subtree is moved, then the back subtree, and the ownership pointers of the
node are rewritten into the array indices its children were given. The array is passed in
and returned; the first component is the reference that replaces the pointer to the
subtree. -/
def MoveSubTreeToArray :
    BSPNode Plane Polygon → List (ArrayNode Plane Polygon) →
      NodeRef × List (ArrayNode Plane Polygon)
  | .leafEmpty, abnNodes => (.LEAF_EMPTY, abnNodes)
  | .leafSolid, abnNodes => (.LEAF_SOLID, abnNodes)
  | .branch plane coplanarPolygons front back, abnNodes =>
    let iNode := abnNodes.length
    let appended := abnNodes ++ [⟨plane, coplanarPolygons, .LEAF_EMPTY, .LEAF_EMPTY⟩]
    let movedFront := MoveSubTreeToArray front appended
    let movedBack := MoveSubTreeToArray back movedFront.2
    (.NODE_INDEX iNode,
      movedBack.2.set iNode ⟨plane, coplanarPolygons, movedFront.1, movedBack.1⟩)

/-- Modelled from the spec: `BSPTree::MoveNodesToArray` (body absent). Moves the tree
rooted at `bt_pbnRoot` into the array `bt_abnNodes`, which starts out empty, and lets the
root refer into the array. -/
def MoveNodesToArray (pbnRoot : BSPNode Plane Polygon) : BSPTree Plane Polygon :=
  let moved := MoveSubTreeToArray pbnRoot []
  { bt_abnNodes := moved.2, bt_pbnRoot := moved.1 }

/-- The reference a subtree is replaced by when its first node is stored at `iFirst`. -/
def refOf : BSPNode Plane Polygon → Nat → NodeRef
  | .leafEmpty, _ => .LEAF_EMPTY
  | .leafSolid, _ => .LEAF_SOLID
  | .branch _ _ _ _, iFirst => .NODE_INDEX iFirst

/-- The pre-order listing of a subtree whose first node is stored at `iFirst`. -/
def preorder : BSPNode Plane Polygon → Nat → List (ArrayNode Plane Polygon)
  | .leafEmpty, _ => []
  | .leafSolid, _ => []
  | .branch plane coplanarPolygons front back, iFirst =>
    ⟨plane, coplanarPolygons, refOf front (iFirst + 1),
        refOf back (iFirst + 1 + CountNodes front)⟩
      :: (preorder front (iFirst + 1) ++ preorder back (iFirst + 1 + CountNodes front))

/-- Both child references of `bn`, stored at position `i` of an array of `ct` nodes, are
leaves or indices past `i` and inside the array. -/
def ForwardRefs (bn : ArrayNode Plane Polygon) (i ct : Nat) : Prop :=
  ∀ j, (bn.front = .NODE_INDEX j ∨ bn.back = .NODE_INDEX j) → i < j ∧ j < ct

end BSP

/-! ## Planes, polygons and the persisted format

`BSPTree::Read_t` and `BSPTree::Write_t` are declared in `BSP.h`; their bodies, the plane
and polygon classes and the stream class `CTStream` are not part of the sources at hand.
They are modelled on sections 3, 4.4 and 6 of the design document. A stream is the list of
the values written to it, each an integer or a scalar; reading takes values from the front
and fails on a truncated stream or on a value of the wrong kind.
-/

namespace BSP

/-- Modelled from the spec: a splitting plane (class absent), normal and offset, that is
`iDimensions + 1` coefficients. -/
structure Plane (T : Type) (iDimensions : Nat) where
  normal : Vector T iDimensions
  offset : T

instance {T : Type} {iDimensions : Nat} [DecidableEq T] :
    DecidableEq (Plane T iDimensions) := fun a b =>
  decidable_of_iff (a.normal = b.normal ∧ a.offset = b.offset) (by
    cases a
    cases b
    simp)

/-- Modelled from the spec: a polygon (class `BSPPolygon` absent), the ordered sequence of
its points. -/
abbrev BSPPolygon (T : Type) (iDimensions : Nat) : Type := List (Vector T iDimensions)

/-- Modelled from the spec: one value on a persistent stream, an integer (a count, a tag or
an index) or a scalar of the coordinate type. -/
inductive StreamItem (T : Type) where
  | index (i : Nat) : StreamItem T
  | scalar (x : T) : StreamItem T
  deriving DecidableEq, Repr

/-- Modelled from the spec: the stream `CTStream` (class absent), as the values it holds. -/
abbrev CTStream (T : Type) : Type := List (StreamItem T)

/-- Modelled from the spec: the failures of loading (section 7): a truncated stream or a
value of the wrong kind, raised by the stream primitives, and format corruption, raised by
the serializer on an invalid tag or an out-of-range or non-forward node reference. -/
inductive StreamError where
  | truncated : StreamError
  | typeMismatch : StreamError
  | formatCorruption : StreamError
  deriving DecidableEq, Repr

section Serializer

variable {T : Type} {iDimensions : Nat}

/-- Modelled from the spec: the stream primitive that reads one integer. -/
def readIndex : CTStream T → Except StreamError (Nat × CTStream T)
  | [] => .error .truncated
  | .index i :: strm => .ok (i, strm)
  | .scalar _ :: _ => .error .typeMismatch

/-- Modelled from the spec: the stream primitive that reads one scalar. -/
def readScalar : CTStream T → Except StreamError (T × CTStream T)
  | [] => .error .truncated
  | .scalar x :: strm => .ok (x, strm)
  | .index _ :: _ => .error .typeMismatch

/-- Writes the items of a list one after the other. -/
def writeList {α : Type} (writeOne : α → CTStream T) : List α → CTStream T
  | [] => []
  | x :: xs => writeOne x ++ writeList writeOne xs

/-- Reads `ct` items one after the other. -/
def readList {α : Type} (readOne : CTStream T → Except StreamError (α × CTStream T)) :
    Nat → CTStream T → Except StreamError (List α × CTStream T)
  | 0, strm => .ok ([], strm)
  | ct + 1, strm => do
    let (x, strm) ← readOne strm
    let (xs, strm) ← readList readOne ct strm
    pure (x :: xs, strm)

/-- Modelled from the spec: the coordinates of a vector, in order. -/
def writeVector (v : Vector T iDimensions) : CTStream T :=
  (List.ofFn v).map .scalar

/-- Modelled from the spec: reads the `ct` coordinates of a vector. -/
def readVector : (ct : Nat) → CTStream T → Except StreamError (Vector T ct × CTStream T)
  | 0, strm => .ok (![], strm)
  | ct + 1, strm => do
    let (x, strm) ← readScalar strm
    let (v, strm) ← readVector ct strm
    pure (Matrix.vecCons x v, strm)

/-- Modelled from the spec: the plane coefficients, `iDimensions + 1` scalars. -/
def writePlane (pl : Plane T iDimensions) : CTStream T :=
  writeVector pl.normal ++ [.scalar pl.offset]

/-- Modelled from the spec: reads the plane coefficients. -/
def readPlane (iDimensions : Nat) (strm : CTStream T) :
    Except StreamError (Plane T iDimensions × CTStream T) := do
  let (normal, strm) ← readVector iDimensions strm
  let (offset, strm) ← readScalar strm
  pure (⟨normal, offset⟩, strm)

/-- Modelled from the spec: a polygon, its vertex count and its vertex coordinates. -/
def writePolygon (po : BSPPolygon T iDimensions) : CTStream T :=
  .index po.length :: writeList writeVector po

/-- Modelled from the spec: reads a polygon. -/
def readPolygon (iDimensions : Nat) (strm : CTStream T) :
    Except StreamError (BSPPolygon T iDimensions × CTStream T) := do
  let (ctVertices, strm) ← readIndex strm
  readList (readVector iDimensions) ctVertices strm

/-- Modelled from the spec: a reference as a tagged value, tag 0 for `LEAF_EMPTY`, tag 1
for `LEAF_SOLID`, tag 2 followed by the index for `NODE_INDEX(i)`. -/
def writeRef : NodeRef → CTStream T
  | .LEAF_EMPTY => [.index 0]
  | .LEAF_SOLID => [.index 1]
  | .NODE_INDEX i => [.index 2, .index i]

/-- Modelled from the spec: reads a reference of the node at position `iNode` of `ctNodes`
nodes, validating that a decoded index is within bounds and strictly greater than the
position of the node; a violation is a format-corruption failure. -/
def readRef (iNode ctNodes : Nat) (strm : CTStream T) :
    Except StreamError (NodeRef × CTStream T) := do
  let (tag, strm) ← readIndex strm
  if tag = 0 then pure (.LEAF_EMPTY, strm)
  else if tag = 1 then pure (.LEAF_SOLID, strm)
  else if tag = 2 then do
    let (i, strm) ← readIndex strm
    if iNode < i ∧ i < ctNodes then pure (.NODE_INDEX i, strm)
    else throw .formatCorruption
  else throw .formatCorruption

/-- Modelled from the spec: one node in the persisted format: plane, coplanar-polygon count
and geometry, front reference, back reference. -/
def writeNode (bn : ArrayNode (Plane T iDimensions) (BSPPolygon T iDimensions)) :
    CTStream T :=
  writePlane bn.plane
    ++ (.index bn.coplanarPolygons.length :: writeList writePolygon bn.coplanarPolygons)
    ++ writeRef bn.front ++ writeRef bn.back

/-- Modelled from the spec: reads the node at position `iNode` of `ctNodes` nodes. -/
def readNode (iDimensions iNode ctNodes : Nat) (strm : CTStream T) :
    Except StreamError
      (ArrayNode (Plane T iDimensions) (BSPPolygon T iDimensions) × CTStream T) := do
  let (plane, strm) ← readPlane iDimensions strm
  let (ctPolygons, strm) ← readIndex strm
  let (polygons, strm) ← readList (readPolygon iDimensions) ctPolygons strm
  let (front, strm) ← readRef iNode ctNodes strm
  let (back, strm) ← readRef iNode ctNodes strm
  pure (⟨plane, polygons, front, back⟩, strm)

/-- Reads the `ct` nodes at positions `iNode`, `iNode + 1`, ... of `ctNodes` nodes. -/
def readNodes (iDimensions ctNodes : Nat) :
    Nat → Nat → CTStream T →
      Except StreamError
        (List (ArrayNode (Plane T iDimensions) (BSPPolygon T iDimensions)) × CTStream T)
  | 0, _, strm => .ok ([], strm)
  | ct + 1, iNode, strm => do
    let (bn, strm) ← readNode iDimensions iNode ctNodes strm
    let (bns, strm) ← readNodes iDimensions ctNodes ct (iNode + 1) strm
    pure (bn :: bns, strm)

/-- Modelled from the spec: `BSPTree::Write_t` (body absent): the node count, then each
node in array order. The value is what is written to the stream. -/
def Write_t (tree : BSPTree (Plane T iDimensions) (BSPPolygon T iDimensions)) :
    CTStream T :=
  .index tree.bt_abnNodes.length :: writeList writeNode tree.bt_abnNodes

/-- Modelled from the spec: `BSPTree::Read_t` (body absent), the inverse operation: reads
the node count, reconstructs the array directly, node by node, and lets the root be index
0. The value is the tree with the rest of the stream, or the failure. -/
def Read_t (iDimensions : Nat) (strm : CTStream T) :
    Except StreamError
      (BSPTree (Plane T iDimensions) (BSPPolygon T iDimensions) × CTStream T) := do
  let (ctNodes, strm) ← readIndex strm
  let (abnNodes, strm) ← readNodes iDimensions ctNodes ctNodes 0 strm
  pure (⟨abnNodes, .NODE_INDEX 0⟩, strm)

end Serializer

/-- A compacted tree: the root is index 0 and every node refers forward, inside the
array (the pre-order invariant). -/
def Compacted {Plane Polygon : Type} (tree : BSPTree Plane Polygon) : Prop :=
  tree.bt_pbnRoot = .NODE_INDEX 0
  ∧ ∀ i bn, tree.bt_abnNodes[i]? = some bn → ForwardRefs bn i tree.bt_abnNodes.length

end BSP

/-! ## Clipping a line segment against the solid

`BSPTree::FindLineMinMax` is declared in `BSP.h`; its body and the plane evaluation of the
vector library are not part of the sources at hand. They are modelled on section 4.3 of
the design document.
-/

namespace BSP

section Query

variable {T : Type} [LinearOrderedField T] {iDimensions : Nat} {Polygon : Type}

/-- Modelled from the spec: plane evaluation (vector library absent), the signed distance
of a point to the plane: positive in front of it, negative behind it. -/
def Plane.PointDistance (pl : Plane T iDimensions) (v : Vector T iDimensions) : T :=
  (∑ i, pl.normal i * v i) - pl.offset

/-- Modelled from the spec: the point `v0 + t·(v1 − v0)` of the segment. -/
def LinePoint (v0 v1 : Vector T iDimensions) (t : T) : Vector T iDimensions :=
  fun i => v0 i + t * (v1 i - v0 i)

/-- Modelled from the spec: the union of two inside-intervals, as one interval from the
smaller lower end to the larger upper end; `none` is the interval with nothing inside. -/
def unionIntervals : Option (T × T) → Option (T × T) → Option (T × T)
  | none, r => r
  | some (a, b), none => some (a, b)
  | some (a, b), some (c, d) => some (Min a c, Max b d)

/-- Modelled from the spec: the recursive step of `FindLineMinMax` for the part `[t0, t1]`
of the segment and the subtree behind a reference. A solid leaf has the whole part inside,
an empty leaf nothing. At a node the plane-crossing parameter `tCross` is computed; the
part is split there, the sub-interval on the front side goes to `front`, the one on the
back side to `back`, and the results are united. A segment parallel to the plane has no
`tCross` and is classified by the sign of the distance of `v0`: positive to the front,
negative to the back, zero (the segment lies in the plane) to both closed half-spaces.
The first argument bounds the depth of the descent; the number of nodes is enough for a
compacted tree, whose references all point forward. -/
def FindLineMinMaxNode
    (abnNodes : List (ArrayNode (Plane T iDimensions) Polygon))
    (v0 v1 : Vector T iDimensions) : Nat → NodeRef → T → T → Option (T × T)
  | _, .LEAF_EMPTY, _, _ => none
  | _, .LEAF_SOLID, t0, t1 => if t0 ≤ t1 then some (t0, t1) else none
  | 0, .NODE_INDEX _, _, _ => none
  | depth + 1, .NODE_INDEX i, t0, t1 =>
    match abnNodes[i]? with
    | none => none
    | some bn =>
      let d0 := bn.plane.PointDistance v0
      let d1 := bn.plane.PointDistance v1
      if d0 = d1 then
        if 0 < d0 then FindLineMinMaxNode abnNodes v0 v1 depth bn.front t0 t1
        else if d0 < 0 then FindLineMinMaxNode abnNodes v0 v1 depth bn.back t0 t1
        else unionIntervals (FindLineMinMaxNode abnNodes v0 v1 depth bn.front t0 t1)
          (FindLineMinMaxNode abnNodes v0 v1 depth bn.back t0 t1)
      else
        let tCross := d0 / (d0 - d1)
        if d1 < d0 then
          unionIntervals
            (FindLineMinMaxNode abnNodes v0 v1 depth bn.front t0 (Min t1 tCross))
            (FindLineMinMaxNode abnNodes v0 v1 depth bn.back (Max t0 tCross) t1)
        else
          unionIntervals
            (FindLineMinMaxNode abnNodes v0 v1 depth bn.front (Max t0 tCross) t1)
            (FindLineMinMaxNode abnNodes v0 v1 depth bn.back t0 (Min t1 tCross))

/-- Modelled from the spec: `BSPTree::FindLineMinMax` (body absent). Parametrizes the
segment as `v0 + t·(v1 − v0)`, `t ∈ [0,1]`, descends from the root and returns
`(tMin, tMax)`; if no part of the segment is inside, the empty interval with
`tMin = 1 > tMax = 0`. -/
def FindLineMinMax (tree : BSPTree (Plane T iDimensions) Polygon)
    (v0 v1 : Vector T iDimensions) : T × T :=
  match FindLineMinMaxNode tree.bt_abnNodes v0 v1 tree.bt_abnNodes.length
      tree.bt_pbnRoot 0 1 with
  | some (tMin, tMax) => (tMin, tMax)
  | none => (1, 0)

/-- A point lies inside the solid, boundary included: descending from the reference, going
to the front where the distance to the plane is not negative and to the back where it is
not positive, it can reach a solid leaf. -/
inductive Inside (abnNodes : List (ArrayNode (Plane T iDimensions) Polygon)) :
    NodeRef → Vector T iDimensions → Prop where
  | solid (p : Vector T iDimensions) : Inside abnNodes .LEAF_SOLID p
  | front (i : Nat) (bn : ArrayNode (Plane T iDimensions) Polygon)
      (p : Vector T iDimensions) (hbn : abnNodes[i]? = some bn)
      (hd : 0 ≤ bn.plane.PointDistance p) (hin : Inside abnNodes bn.front p) :
      Inside abnNodes (.NODE_INDEX i) p
  | back (i : Nat) (bn : ArrayNode (Plane T iDimensions) Polygon)
      (p : Vector T iDimensions) (hbn : abnNodes[i]? = some bn)
      (hd : bn.plane.PointDistance p ≤ 0) (hin : Inside abnNodes bn.back p) :
      Inside abnNodes (.NODE_INDEX i) p

/-- The interval `r` is the hull of the set `S` of parameters: nothing when `S` is empty,
otherwise from the smallest to the largest element of `S`. -/
def IsHull (S : T → Prop) : Option (T × T) → Prop
  | none => ∀ t, ¬ S t
  | some (a, b) => S a ∧ S b ∧ ∀ t, S t → a ≤ t ∧ t ≤ b

end Query

/-- Modelled from the spec: the face of the unit cube `[0,1]^3` on the plane with the given
outward normal and offset, as a boundary quad with its four corners. -/
def unitCubeFace (normal : Vector Rat 3) (offset : Rat) (quad : BSPPolygon Rat 3)
    (back : BSPNode (Plane Rat 3) (BSPPolygon Rat 3)) :
    BSPNode (Plane Rat 3) (BSPPolygon Rat 3) :=
  .branch ⟨normal, offset⟩ [quad] .leafEmpty back

/-- Modelled from the spec: the BSP tree of the unit cube `[0,1]^3` as the builder of
section 4.1 leaves it for the boundary quads with outward normals, taken in the order
`x = 0`, `x = 1`, `y = 0`, `y = 1`, `z = 0`, `z = 1`. All other quads lie behind the plane
of the chosen quad, so every front side is the empty leaf, the back side holds the
remaining quads, and the last back side is the solid leaf. -/
def unitCube : BSPNode (Plane Rat 3) (BSPPolygon Rat 3) :=
  unitCubeFace ![-1, 0, 0] 0 [![0, 0, 0], ![0, 0, 1], ![0, 1, 1], ![0, 1, 0]] <|
  unitCubeFace ![1, 0, 0] 1 [![1, 0, 0], ![1, 1, 0], ![1, 1, 1], ![1, 0, 1]] <|
  unitCubeFace ![0, -1, 0] 0 [![0, 0, 0], ![1, 0, 0], ![1, 0, 1], ![0, 0, 1]] <|
  unitCubeFace ![0, 1, 0] 1 [![0, 1, 0], ![0, 1, 1], ![1, 1, 1], ![1, 1, 0]] <|
  unitCubeFace ![0, 0, -1] 0 [![0, 0, 0], ![0, 1, 0], ![1, 1, 0], ![1, 0, 0]] <|
  unitCubeFace ![0, 0, 1] 1 [![0, 0, 1], ![1, 0, 1], ![1, 1, 1], ![0, 1, 1]] .leafSolid

end BSP

/-! ## Reading the loops -/

section Loops

variable {T : Type} [LinearOrder T] {iDimensions : Nat}

theorem Min_eq_min (a b : T) : Min a b = min a b := by
  unfold Min
  split_ifs with h
  · exact (min_eq_right (le_of_lt h)).symm
  · exact (min_eq_left (not_lt.mp h)).symm

theorem Max_eq_max (a b : T) : Max a b = max a b := by
  unfold Max
  split_ifs with h
  · exact (max_eq_right (le_of_lt h)).symm
  · exact (max_eq_left (not_lt.mp h)).symm

theorem operatorLe_iff (a b : AABBox T iDimensions) :
    a.operatorLe b = true ↔ ∀ i, b.minvect i ≤ a.minvect i ∧ a.maxvect i ≤ b.maxvect i := by
  simp [AABBox.operatorLe, List.all_eq_true, List.mem_finRange]

theorem IsEmpty_iff (a : AABBox T iDimensions) :
    a.IsEmpty = true ↔ ∃ i, a.maxvect i < a.minvect i := by
  simp [AABBox.IsEmpty, List.any_eq_true, List.mem_finRange]

theorem IsEmpty_eq_false_iff (a : AABBox T iDimensions) :
    a.IsEmpty = false ↔ ∀ i, a.minvect i ≤ a.maxvect i := by
  rw [← Bool.not_eq_true, IsEmpty_iff]
  simp

theorem HasContactWith_iff (a b : AABBox T iDimensions) :
    a.HasContactWith b = true ↔
      ∀ i, b.minvect i ≤ a.maxvect i ∧ a.minvect i ≤ b.maxvect i := by
  simp [AABBox.HasContactWith, List.all_eq_true, List.mem_finRange]

end Loops

/-! ## Union and containment -/

section Claims

variable {T : Type} [LinearOrder T] {iDimensions : Nat}

/-- C1: union is the least upper bound for containment. For every two boxes `a` and `b`,
empty ones included, the box `u` obtained by `a |= b` satisfies `a <= u` and `b <= u`, and
every box `c` with `a <= c` and `b <= c` also satisfies `u <= c`. -/
theorem union_is_least_upper_bound (a b : AABBox T iDimensions) :
    a.operatorLe (a.operatorOrAssign b) = true
    ∧ b.operatorLe (a.operatorOrAssign b) = true
    ∧ ∀ c : AABBox T iDimensions, a.operatorLe c = true → b.operatorLe c = true →
        (a.operatorOrAssign b).operatorLe c = true := by
  refine ⟨?_, ?_, ?_⟩
  · rw [operatorLe_iff]
    intro i
    simp [AABBox.operatorOrAssign, Min_eq_min, Max_eq_max]
  · rw [operatorLe_iff]
    intro i
    simp [AABBox.operatorOrAssign, Min_eq_min, Max_eq_max]
  · intro c hac hbc
    rw [operatorLe_iff] at hac hbc ⊢
    intro i
    simp only [AABBox.operatorOrAssign, Min_eq_min, Max_eq_max]
    exact ⟨le_min (hac i).1 (hbc i).1, max_le (hac i).2 (hbc i).2⟩

/-- C1, at a concrete input: the union of `[0,1]²` and `[2,3]²` is below the common upper
bound `[0,5]²`. -/
theorem union_is_least_upper_bound_witness :
    (AABBox.mk ![(0 : Int), 0] ![1, 1]).operatorLe (AABBox.mk ![0, 0] ![5, 5]) = true
    ∧ (AABBox.mk ![(2 : Int), 2] ![3, 3]).operatorLe (AABBox.mk ![0, 0] ![5, 5]) = true
    ∧ ((AABBox.mk ![(0 : Int), 0] ![1, 1]).operatorOrAssign
        (AABBox.mk ![2, 2] ![3, 3])).operatorLe (AABBox.mk ![0, 0] ![5, 5]) = true :=
  ⟨by decide, by decide,
    (union_is_least_upper_bound (AABBox.mk ![(0 : Int), 0] ![1, 1])
      (AABBox.mk ![2, 2] ![3, 3])).2.2 (AABBox.mk ![0, 0] ![5, 5]) (by decide) (by decide)⟩

/-! ## Intersection -/

/-- C2: intersection is the greatest lower bound for containment. For every two boxes `a`
and `b` whose coordinates all lie between `LowerLimit` and `UpperLimit`, the box
`r = a & b` satisfies `r <= a` and `r <= b` (also when `r` was normalized to the empty
box), and every non-empty box `c` with `c <= a` and `c <= b` satisfies `c <= r`. -/
theorem intersection_is_greatest_lower_bound (UpperLimit LowerLimit : T)
    (a b : AABBox T iDimensions)
    (ha : a.WithinLimits UpperLimit LowerLimit) (hb : b.WithinLimits UpperLimit LowerLimit) :
    (a.operatorAnd UpperLimit LowerLimit b).operatorLe a = true
    ∧ (a.operatorAnd UpperLimit LowerLimit b).operatorLe b = true
    ∧ ∀ c : AABBox T iDimensions, c.IsEmpty = false →
        c.operatorLe a = true → c.operatorLe b = true →
        c.operatorLe (a.operatorAnd UpperLimit LowerLimit b) = true := by
  refine ⟨?_, ?_, ?_⟩
  · rw [operatorLe_iff]
    intro i
    unfold AABBox.operatorAnd AABBox.operatorAndAssign
    dsimp only
    split_ifs with h
    · exact ⟨(ha i).2.1, (ha i).2.2.1⟩
    · simp [Min_eq_min, Max_eq_max]
  · rw [operatorLe_iff]
    intro i
    unfold AABBox.operatorAnd AABBox.operatorAndAssign
    dsimp only
    split_ifs with h
    · exact ⟨(hb i).2.1, (hb i).2.2.1⟩
    · simp [Min_eq_min, Max_eq_max]
  · intro c hc hca hcb
    rw [IsEmpty_eq_false_iff] at hc
    rw [operatorLe_iff] at hca hcb
    have hne : (AABBox.mk (fun i => Max (a.minvect i) (b.minvect i))
        (fun i => Min (a.maxvect i) (b.maxvect i)) : AABBox T iDimensions).IsEmpty
          = false := by
      rw [IsEmpty_eq_false_iff]
      intro i
      simp only [Min_eq_min, Max_eq_max]
      exact le_trans (max_le (hca i).1 (hcb i).1)
        (le_trans (hc i) (le_min (hca i).2 (hcb i).2))
    rw [operatorLe_iff]
    intro i
    unfold AABBox.operatorAnd AABBox.operatorAndAssign
    dsimp only
    rw [hne]
    simp only [Bool.false_eq_true, if_false, Min_eq_min, Max_eq_max]
    exact ⟨max_le (hca i).1 (hcb i).1, le_min (hca i).2 (hcb i).2⟩

/-- C2, at a concrete input: `[0,2]² & [1,3]²` contains the non-empty box `[1,2]²`, which
lies in both. -/
theorem intersection_is_greatest_lower_bound_witness :
    (AABBox.mk ![(0 : Int), 0] ![2, 2]).WithinLimits 100 (-100)
    ∧ (AABBox.mk ![(1 : Int), 1] ![3, 3]).WithinLimits 100 (-100)
    ∧ ((AABBox.mk ![(0 : Int), 0] ![2, 2]).operatorAnd 100 (-100)
        (AABBox.mk ![1, 1] ![3, 3])).operatorLe (AABBox.mk ![0, 0] ![2, 2]) = true
    ∧ (AABBox.mk ![(1 : Int), 1] ![2, 2]).operatorLe
        ((AABBox.mk ![(0 : Int), 0] ![2, 2]).operatorAnd 100 (-100)
          (AABBox.mk ![1, 1] ![3, 3])) = true :=
  ⟨by decide, by decide,
    (intersection_is_greatest_lower_bound 100 (-100) (AABBox.mk ![(0 : Int), 0] ![2, 2])
      (AABBox.mk ![1, 1] ![3, 3]) (by decide) (by decide)).1,
    (intersection_is_greatest_lower_bound 100 (-100) (AABBox.mk ![(0 : Int), 0] ![2, 2])
      (AABBox.mk ![1, 1] ![3, 3]) (by decide) (by decide)).2.2
      (AABBox.mk ![1, 1] ![2, 2]) (by decide) (by decide) (by decide)⟩

/-! ## Containment and contact as statements about points -/

/-- C3: the containment test agrees with point-set inclusion. For every non-empty box `a`
and every box `b`, `a <= b` returns TRUE if and only if every point of `a` is a point of
`b`; and `b >= a` returns the same value as `a <= b`. -/
theorem containment_agrees_with_point_inclusion (a b : AABBox T iDimensions)
    (ha : a.IsEmpty = false) :
    (a.operatorLe b = true ↔ ∀ p : Vector T iDimensions, a.Contains p → b.Contains p)
    ∧ b.operatorGe a = a.operatorLe b := by
  rw [IsEmpty_eq_false_iff] at ha
  refine ⟨?_, rfl⟩
  rw [operatorLe_iff]
  constructor
  · intro h p hp i
    exact ⟨le_trans (h i).1 (hp i).1, le_trans (hp i).2 (h i).2⟩
  · intro h i
    have hlo := h a.minvect (fun j => ⟨le_refl _, ha j⟩) i
    have hhi := h a.maxvect (fun j => ⟨ha j, le_refl _⟩) i
    exact ⟨hlo.1, hhi.2⟩

/-- C3, at a concrete input: the non-empty box `[1,2]²` against `[0,3]²`. -/
theorem containment_agrees_with_point_inclusion_witness :
    (AABBox.mk ![(1 : Int), 1] ![2, 2]).IsEmpty = false
    ∧ ((AABBox.mk ![(1 : Int), 1] ![2, 2]).operatorLe (AABBox.mk ![0, 0] ![3, 3]) = true ↔
        ∀ p : Vector Int 2, (AABBox.mk ![(1 : Int), 1] ![2, 2]).Contains p →
          (AABBox.mk ![(0 : Int), 0] ![3, 3]).Contains p)
    ∧ (AABBox.mk ![(0 : Int), 0] ![3, 3]).operatorGe (AABBox.mk ![1, 1] ![2, 2])
        = (AABBox.mk ![(1 : Int), 1] ![2, 2]).operatorLe (AABBox.mk ![0, 0] ![3, 3]) :=
  ⟨by decide,
    containment_agrees_with_point_inclusion (AABBox.mk ![(1 : Int), 1] ![2, 2])
      (AABBox.mk ![0, 0] ![3, 3]) (by decide)⟩

/-- C4: the contact test agrees with having a common point. For every two non-empty boxes
`a` and `b`, `a.HasContactWith(b)` returns TRUE if and only if some point lies in both
boxes (boundaries included), which is the case if and only if `(a & b).IsEmpty()` is FALSE.
The limits of `Functions.h` enter through `&`; they satisfy `LowerLimit < UpperLimit`. -/
theorem contact_agrees_with_common_point (UpperLimit LowerLimit : T)
    (hlim : LowerLimit < UpperLimit) (a b : AABBox T iDimensions)
    (ha : a.IsEmpty = false) (hb : b.IsEmpty = false) :
    (a.HasContactWith b = true ↔ ∃ p : Vector T iDimensions, a.Contains p ∧ b.Contains p)
    ∧ ((∃ p : Vector T iDimensions, a.Contains p ∧ b.Contains p) ↔
        (a.operatorAnd UpperLimit LowerLimit b).IsEmpty = false) := by
  rw [IsEmpty_eq_false_iff] at ha hb
  have key : a.HasContactWith b = true ↔
      ∃ p : Vector T iDimensions, a.Contains p ∧ b.Contains p := by
    rw [HasContactWith_iff]
    constructor
    · intro h
      refine ⟨fun i => max (a.minvect i) (b.minvect i), fun i => ?_, fun i => ?_⟩
      · exact ⟨le_max_left _ _, max_le (ha i) (h i).1⟩
      · exact ⟨le_max_right _ _, max_le (h i).2 (hb i)⟩
    · rintro ⟨p, hpa, hpb⟩ i
      exact ⟨le_trans (hpb i).1 (hpa i).2, le_trans (hpa i).1 (hpb i).2⟩
  refine ⟨key, ?_⟩
  rw [← key, HasContactWith_iff]
  unfold AABBox.operatorAnd AABBox.operatorAndAssign
  dsimp only
  split_ifs with h
  · rw [IsEmpty_iff] at h
    obtain ⟨i, hi⟩ := h
    simp only [Min_eq_min, Max_eq_max] at hi
    have hemp : (AABBox.SetToNormalizedEmpty UpperLimit LowerLimit :
        AABBox T iDimensions).IsEmpty = true := by
      rw [IsEmpty_iff]
      exact ⟨i, hlim⟩
    rw [hemp]
    simp only [Bool.true_eq_false, iff_false, not_forall]
    refine ⟨i, fun hc => ?_⟩
    exact absurd (le_min (max_le (ha i) hc.1) (max_le hc.2 (hb i))) (not_le.mpr hi)
  · rw [Bool.not_eq_true] at h
    rw [h]
    simp only [iff_true]
    rw [IsEmpty_eq_false_iff] at h
    intro i
    have hi := h i
    simp only [Min_eq_min, Max_eq_max] at hi
    exact ⟨le_trans (le_max_right _ _) (le_trans hi (min_le_left _ _)),
      le_trans (le_max_left _ _) (le_trans hi (min_le_right _ _))⟩

/-- C4, at a concrete input: `[0,1]²` and `[1,2]²` touch in the corner `(1,1)`. -/
theorem contact_agrees_with_common_point_witness :
    ((-100 : Int) < 100)
    ∧ (AABBox.mk ![(0 : Int), 0] ![1, 1]).IsEmpty = false
    ∧ (AABBox.mk ![(1 : Int), 1] ![2, 2]).IsEmpty = false
    ∧ ((AABBox.mk ![(0 : Int), 0] ![1, 1]).HasContactWith (AABBox.mk ![1, 1] ![2, 2]) = true ↔
        ∃ p : Vector Int 2, (AABBox.mk ![(0 : Int), 0] ![1, 1]).Contains p
          ∧ (AABBox.mk ![(1 : Int), 1] ![2, 2]).Contains p)
    ∧ ((∃ p : Vector Int 2, (AABBox.mk ![(0 : Int), 0] ![1, 1]).Contains p
          ∧ (AABBox.mk ![(1 : Int), 1] ![2, 2]).Contains p) ↔
        ((AABBox.mk ![(0 : Int), 0] ![1, 1]).operatorAnd 100 (-100)
          (AABBox.mk ![1, 1] ![2, 2])).IsEmpty = false) :=
  ⟨by decide, by decide, by decide,
    contact_agrees_with_common_point 100 (-100) (by decide)
      (AABBox.mk ![(0 : Int), 0] ![1, 1]) (AABBox.mk ![1, 1] ![2, 2])
      (by decide) (by decide)⟩

end Claims

/-! ## The sphere test -/

section Sphere

variable {T : Type} [LinearOrderedCommRing T] {iDimensions : Nat}

theorem TouchesSphere_iff (b : AABBox T iDimensions) (c : Vector T iDimensions) (r : T) :
    b.TouchesSphere c r = true ↔
      ∀ i, b.minvect i ≤ c i + r ∧ c i - r ≤ b.maxvect i := by
  simp [AABBox.TouchesSphere, List.all_eq_true, List.mem_finRange]

/-- C5: `TouchesSphere` is documented as the check whether the box intersects or touches
the sphere, and at this input it does not do that. For the unit square and the circle of
radius 1 around `(2,2)` the spans have contact on both axes, so `TouchesSphere` returns
TRUE, while the nearest point `(1,1)` of the square is at squared distance 2 from the
centre: no point `p` of the box satisfies `sum_i (p(i) - c(i))^2 <= r^2`. All values are
small integers, so the sums `center ± radius` are exact in every coordinate type; the code
answers the same over the rationals and over 32-bit integers. -/
theorem touchesSphere_not_exact :
    (AABBox.mk ![(0 : Rat), 0] ![1, 1]).IsEmpty = false
    ∧ (0 : Rat) ≤ 1
    ∧ (AABBox.mk ![(0 : Rat), 0] ![1, 1]).TouchesSphere ![2, 2] 1 = true
    ∧ (AABBox.mk ![(0 : INDEX), 0] ![1, 1]).TouchesSphere ![2, 2] 1 = true
    ∧ ¬ ∃ p : Vector Rat 2, (AABBox.mk ![(0 : Rat), 0] ![1, 1]).Contains p
        ∧ ∑ i, (p i - (![2, 2] : Vector Rat 2) i) ^ 2 ≤ (1 : Rat) ^ 2 := by
  refine ⟨?_, by norm_num, ?_, by decide, ?_⟩
  · rw [IsEmpty_eq_false_iff]
    intro i
    fin_cases i <;> simp
  · rw [TouchesSphere_iff]
    intro i
    fin_cases i <;> norm_num
  · rintro ⟨p, hp, hsum⟩
    have h0 := (hp 0).2
    have h1 := (hp 1).2
    simp only [Fin.sum_univ_two, Matrix.cons_val_zero, Matrix.cons_val_one,
      Matrix.head_cons] at hsum h0 h1
    nlinarith [sq_nonneg (p 0 - 1), sq_nonneg (p 1 - 1)]

end Sphere

/-! ## Empty boxes and constructors -/

section Constructors

variable {T : Type} [LinearOrder T] {iDimensions : Nat}

theorem operatorEq_iff (a b : AABBox T iDimensions) :
    a.operatorEq b = true ↔ a.minvect = b.minvect ∧ a.maxvect = b.maxvect := by
  simp [AABBox.operatorEq]

/-- C6: an empty intersection is always normalized. With `LowerLimit < UpperLimit` (and at
least one dimension, as every instantiation of the template has), for every two boxes `a`
and `b` the result `r` of `a &= b` satisfies `r.IsEmpty()` if and only if
`r == AABBox()`; the operator never returns an empty box with any other coordinates. -/
theorem empty_intersection_is_normalized (UpperLimit LowerLimit : T)
    (hlim : LowerLimit < UpperLimit) (hdim : 0 < iDimensions)
    (a b : AABBox T iDimensions) :
    (a.operatorAndAssign UpperLimit LowerLimit b).IsEmpty = true ↔
      (a.operatorAndAssign UpperLimit LowerLimit b).operatorEq
        (AABBox.default UpperLimit LowerLimit) = true := by
  have hemp : (AABBox.SetToNormalizedEmpty UpperLimit LowerLimit :
      AABBox T iDimensions).IsEmpty = true := by
    rw [IsEmpty_iff]
    exact ⟨⟨0, hdim⟩, hlim⟩
  unfold AABBox.operatorAndAssign AABBox.default
  dsimp only
  split_ifs with h
  · rw [hemp, operatorEq_iff]
    simp
  · rw [operatorEq_iff]
    constructor
    · intro h'
      exact absurd h' h
    · rintro ⟨h1, h2⟩
      exfalso
      apply h
      rw [IsEmpty_iff]
      refine ⟨⟨0, hdim⟩, ?_⟩
      have e1 := congrFun h1 ⟨0, hdim⟩
      have e2 := congrFun h2 ⟨0, hdim⟩
      simp only [AABBox.SetToNormalizedEmpty] at e1 e2
      simp only [e1, e2]
      exact hlim

/-- C6, at a concrete input: the disjoint boxes `[0,1]²` and `[2,3]²`. -/
theorem empty_intersection_is_normalized_witness :
    ((-100 : Int) < 100) ∧ 0 < 2
    ∧ (((AABBox.mk ![(0 : Int), 0] ![1, 1]).operatorAndAssign 100 (-100)
          (AABBox.mk ![2, 2] ![3, 3])).IsEmpty = true ↔
        ((AABBox.mk ![(0 : Int), 0] ![1, 1]).operatorAndAssign 100 (-100)
          (AABBox.mk ![2, 2] ![3, 3])).operatorEq (AABBox.default 100 (-100)) = true) :=
  ⟨by decide, by decide,
    empty_intersection_is_normalized 100 (-100) (by decide) (by decide)
      (AABBox.mk ![(0 : Int), 0] ![1, 1]) (AABBox.mk ![2, 2] ![3, 3])⟩

/-- C7: the default constructor builds an empty box. For every dimension count `>= 1` and
with `LowerLimit < UpperLimit`, `AABBox().IsEmpty()` returns TRUE, with `Min` equal to
`UpperLimit` and `Max` equal to `LowerLimit` on every axis. -/
theorem default_constructor_is_empty (UpperLimit LowerLimit : T)
    (hlim : LowerLimit < UpperLimit) (hdim : 1 ≤ iDimensions) :
    (AABBox.default UpperLimit LowerLimit : AABBox T iDimensions).IsEmpty = true
    ∧ ∀ i, (AABBox.default UpperLimit LowerLimit : AABBox T iDimensions).getMin i
          = UpperLimit
        ∧ (AABBox.default UpperLimit LowerLimit : AABBox T iDimensions).getMax i
          = LowerLimit := by
  refine ⟨?_, fun i => ⟨rfl, rfl⟩⟩
  rw [IsEmpty_iff]
  exact ⟨⟨0, hdim⟩, hlim⟩

/-- C7, at a concrete input: three dimensions, limits `±100`. -/
theorem default_constructor_is_empty_witness :
    ((-100 : Int) < 100) ∧ 1 ≤ 3
    ∧ (AABBox.default 100 (-100) : AABBox Int 3).IsEmpty = true
    ∧ ∀ i, (AABBox.default 100 (-100) : AABBox Int 3).getMin i = 100
        ∧ (AABBox.default 100 (-100) : AABBox Int 3).getMax i = -100 :=
  ⟨by decide, by decide, default_constructor_is_empty 100 (-100) (by decide) (by decide)⟩

/-- C8: the two-point constructor builds the bounding box of its two points. For all
points `p` and `q`, `AABBox(p, q)` is `operator==`-equal to the union (`operator|=`) of the
one-point boxes `AABBox(p)` and `AABBox(q)`; it is never empty, and
`AABBox(p, q) == AABBox(q, p)`. -/
theorem two_point_constructor_is_union (p q : Vector T iDimensions) :
    (AABBox.ofPoints p q).operatorEq
        ((AABBox.ofPoint p).operatorOrAssign (AABBox.ofPoint q)) = true
    ∧ (AABBox.ofPoints p q).IsEmpty = false
    ∧ (AABBox.ofPoints p q).operatorEq (AABBox.ofPoints q p) = true := by
  refine ⟨?_, ?_, ?_⟩
  · rw [operatorEq_iff]
    exact ⟨rfl, rfl⟩
  · rw [IsEmpty_eq_false_iff]
    intro i
    simp only [AABBox.ofPoints, Min_eq_min, Max_eq_max]
    exact le_trans (min_le_left _ _) (le_max_left _ _)
  · rw [operatorEq_iff]
    constructor
    · funext i
      simp only [AABBox.ofPoints, Min_eq_min]
      exact min_comm _ _
    · funext i
      simp only [AABBox.ofPoints, Max_eq_max]
      exact max_comm _ _

end Constructors

/-! ## Machine integers -/

namespace INDEX

theorem ext_val {a b : INDEX} (h : a.val = b.val) : a = b := by
  cases a
  cases b
  cases h
  rfl

theorem le_iff_val (a b : INDEX) : a ≤ b ↔ a.val ≤ b.val := Iff.rfl

theorem val_wrap (x : Int) :
    (wrap x).val = (x + 2147483648) % 4294967296 - 2147483648 := rfl

/-- An operation whose exact result fits returns that result. -/
theorem val_wrap_of_fits {x : Int} (h : Fits x) : (wrap x).val = x := by
  unfold Fits at h
  rw [val_wrap]
  omega

theorem val_add (a b : INDEX) : (a + b).val = (wrap (a.val + b.val)).val := rfl

theorem val_sub (a b : INDEX) : (a - b).val = (wrap (a.val - b.val)).val := rfl

theorem val_div (a b : INDEX) : (a / b).val = (wrap (a.val.tdiv b.val)).val := rfl

theorem val_two : (2 : INDEX).val = 2 := rfl

theorem fits_val (a : INDEX) : Fits a.val := a.inRange

/-- Half the sum of two integers, truncated toward zero, lies between them. -/
theorem tdiv_two_between {lo hi : Int} (h : lo ≤ hi) :
    lo ≤ (hi + lo).tdiv 2 ∧ (hi + lo).tdiv 2 ≤ hi := by
  by_cases hs : 0 ≤ hi + lo
  · rw [Int.tdiv_eq_ediv hs (by omega)]
    omega
  · have hneg : hi + lo = -(-(hi + lo)) := by omega
    rw [hneg, Int.neg_tdiv, Int.tdiv_eq_ediv (by omega) (by omega)]
    omega

end INDEX

/-! ## Centre and size -/

section CenterSize

variable {T : Type} [LinearOrderedField T] {iDimensions : Nat}

/-- Over exact (ordered field) arithmetic the centre is the middle of the box and lies
inside it: for every non-empty box `b`, `Min(i) <= Center(i) <= Max(i)` on every axis,
equivalently `AABBox(b.Center()) <= b`; `Min + Size == Max`; and
`Center == Min + Size/2`. -/
theorem centre_inside_of_field (b : AABBox T iDimensions) (hb : b.IsEmpty = false) :
    (∀ i, b.getMin i ≤ b.Center i ∧ b.Center i ≤ b.getMax i)
    ∧ (AABBox.ofPoint b.Center).operatorLe b = true
    ∧ b.getMin + b.Size = b.getMax
    ∧ b.Center = b.getMin + fun i => b.Size i / 2 := by
  rw [IsEmpty_eq_false_iff] at hb
  have hin : ∀ i, b.minvect i ≤ b.Center i ∧ b.Center i ≤ b.maxvect i := by
    intro i
    have h := hb i
    unfold AABBox.Center
    constructor
    · rw [le_div_iff₀ (by norm_num : (0 : T) < 2)]
      linarith
    · rw [div_le_iff₀ (by norm_num : (0 : T) < 2)]
      linarith
  refine ⟨hin, ?_, ?_, ?_⟩
  · rw [operatorLe_iff]
    exact hin
  · funext i
    simp [AABBox.getMin, AABBox.getMax, AABBox.Size]
  · funext i
    simp only [AABBox.getMin, AABBox.Center, AABBox.Size, Pi.add_apply]
    ring

/-- The centre over 32-bit integers when the sum `max + min` does not overflow: half the
exact sum, truncated toward zero. -/
theorem Center_val_of_fits (b : AABBox INDEX iDimensions) (i : Fin iDimensions)
    (hfit : INDEX.Fits ((b.maxvect i).val + (b.minvect i).val))
    (hne : b.minvect i ≤ b.maxvect i) :
    (b.Center i).val = ((b.maxvect i).val + (b.minvect i).val).tdiv 2 := by
  have hbetween := INDEX.tdiv_two_between ((INDEX.le_iff_val _ _).mp hne)
  have hlo := (b.minvect i).inRange
  have hhi := (b.maxvect i).inRange
  show ((b.maxvect i + b.minvect i) / 2).val = _
  rw [INDEX.val_div, INDEX.val_add, INDEX.val_wrap_of_fits hfit, INDEX.val_two]
  apply INDEX.val_wrap_of_fits
  unfold INDEX.Fits
  omega

/-- Over 32-bit integers, for every non-empty box `b` whose sums `Max(i) + Min(i)` do not
overflow, the centre lies inside the box, and `Min + Size == Max`. -/
theorem centre_inside_of_fits (b : AABBox INDEX iDimensions) (hb : b.IsEmpty = false)
    (hfit : ∀ i, INDEX.Fits ((b.maxvect i).val + (b.minvect i).val)) :
    (∀ i, b.getMin i ≤ b.Center i ∧ b.Center i ≤ b.getMax i)
    ∧ (AABBox.ofPoint b.Center).operatorLe b = true
    ∧ b.getMin + b.Size = b.getMax := by
  rw [IsEmpty_eq_false_iff] at hb
  have hin : ∀ i, b.minvect i ≤ b.Center i ∧ b.Center i ≤ b.maxvect i := by
    intro i
    have hbetween := INDEX.tdiv_two_between ((INDEX.le_iff_val _ _).mp (hb i))
    rw [INDEX.le_iff_val, INDEX.le_iff_val, Center_val_of_fits b i (hfit i) (hb i)]
    exact hbetween
  refine ⟨hin, ?_, ?_⟩
  · rw [operatorLe_iff]
    exact hin
  · funext i
    apply INDEX.ext_val
    have hhi := (b.maxvect i).inRange
    show (b.minvect i + (b.maxvect i - b.minvect i)).val = (b.maxvect i).val
    rw [INDEX.val_add, INDEX.val_sub, INDEX.val_wrap, INDEX.val_wrap]
    omega

end CenterSize

/-! ## Compaction of the BSP tree -/

namespace BSP

variable {Plane Polygon : Type}

theorem length_preorder (t : BSPNode Plane Polygon) (iFirst : Nat) :
    (preorder t iFirst).length = CountNodes t := by
  induction t generalizing iFirst with
  | leafEmpty => rfl
  | leafSolid => rfl
  | branch plane polys front back ihf ihb =>
    simp only [preorder, CountNodes, List.length_cons, List.length_append, ihf, ihb]
    omega

theorem refOf_eq_index {t : BSPNode Plane Polygon} {iFirst j : Nat}
    (h : refOf t iFirst = .NODE_INDEX j) : j = iFirst ∧ 0 < CountNodes t := by
  cases t with
  | leafEmpty => simp [refOf] at h
  | leafSolid => simp [refOf] at h
  | branch plane polys front back =>
    simp only [refOf, NodeRef.NODE_INDEX.injEq] at h
    simp only [CountNodes]
    omega

/-- What the traversal does to the array: it appends the pre-order listing of the subtree
and returns the reference to its first node. -/
theorem MoveSubTreeToArray_eq (t : BSPNode Plane Polygon)
    (abnNodes : List (ArrayNode Plane Polygon)) :
    MoveSubTreeToArray t abnNodes
      = (refOf t abnNodes.length, abnNodes ++ preorder t abnNodes.length) := by
  induction t generalizing abnNodes with
  | leafEmpty => simp [MoveSubTreeToArray, refOf, preorder]
  | leafSolid => simp [MoveSubTreeToArray, refOf, preorder]
  | branch plane polys front back ihf ihb =>
    have href : refOf (.branch plane polys front back) abnNodes.length
        = .NODE_INDEX abnNodes.length := rfl
    simp only [MoveSubTreeToArray, preorder, href]
    rw [ihf, ihb]
    simp only [List.length_append, List.length_singleton, length_preorder]
    congr 1
    rw [List.append_assoc, List.append_assoc, List.set_append_right _ _ (le_refl _)]
    simp

/-- Every node of a pre-order listing refers forward, and inside the listing. -/
theorem preorder_forward (t : BSPNode Plane Polygon) (iFirst k : Nat)
    (bn : ArrayNode Plane Polygon) (h : (preorder t iFirst)[k]? = some bn) :
    ForwardRefs bn (iFirst + k) (iFirst + CountNodes t) := by
  induction t generalizing iFirst k with
  | leafEmpty => simp [preorder] at h
  | leafSolid => simp [preorder] at h
  | branch plane polys front back ihf ihb =>
    simp only [preorder] at h
    simp only [CountNodes]
    cases k with
    | zero =>
      simp only [List.getElem?_cons_zero, Option.some.injEq] at h
      subst h
      intro j hj
      rcases hj with hj | hj
      · have := refOf_eq_index hj
        omega
      · have := refOf_eq_index hj
        omega
    | succ k =>
      rw [List.getElem?_cons_succ] at h
      by_cases hk : k < (preorder front (iFirst + 1)).length
      · rw [List.getElem?_append_left hk] at h
        intro j hj
        have := ihf (iFirst + 1) k h j hj
        omega
      · rw [List.getElem?_append_right (not_lt.mp hk)] at h
        rw [length_preorder] at h hk
        intro j hj
        have := ihb (iFirst + 1 + CountNodes front) (k - CountNodes front) h j hj
        omega

/-- C10: the pre-order invariant of the compacted BSP tree. After `MoveNodesToArray` has
moved the tree rooted at `bt_pbnRoot` into `bt_abnNodes`, the root is at index 0 (the root
reference is index 0 and the node stored there carries the plane and polygons of the root
node); for every valid index `i`, each front or back child reference of the node at
position `i` points to an index strictly greater than `i` (and inside the array); and the
number of nodes in the array equals `CountNodes` of the root. -/
theorem preorder_invariant (pbnRoot : BSPNode Plane Polygon) :
    (∀ plane polys front back, pbnRoot = .branch plane polys front back →
        (MoveNodesToArray pbnRoot).bt_pbnRoot = .NODE_INDEX 0
        ∧ ∃ bn, (MoveNodesToArray pbnRoot).bt_abnNodes[0]? = some bn
            ∧ bn.plane = plane ∧ bn.coplanarPolygons = polys)
    ∧ (∀ i bn, (MoveNodesToArray pbnRoot).bt_abnNodes[i]? = some bn →
        ∀ j, (bn.front = .NODE_INDEX j ∨ bn.back = .NODE_INDEX j) →
          i < j ∧ j < (MoveNodesToArray pbnRoot).bt_abnNodes.length)
    ∧ (MoveNodesToArray pbnRoot).bt_abnNodes.length = CountNodes pbnRoot := by
  have hmove : MoveNodesToArray pbnRoot
      = { bt_abnNodes := preorder pbnRoot 0, bt_pbnRoot := refOf pbnRoot 0 } := by
    simp [MoveNodesToArray, MoveSubTreeToArray_eq]
  rw [hmove]
  refine ⟨?_, ?_, length_preorder pbnRoot 0⟩
  · rintro plane polys front back rfl
    exact ⟨rfl, ⟨plane, polys, refOf front 1, refOf back (1 + CountNodes front)⟩,
      by simp [preorder], rfl, rfl⟩
  · intro i bn hbn j hj
    have := preorder_forward pbnRoot 0 i bn hbn j hj
    rw [length_preorder]
    omega

/-- C10, at a concrete input: a root with two child nodes, planes numbered 10, 11, 12.
The array holds the root first, then the front child, then the back child. -/
theorem preorder_invariant_witness :
    MoveNodesToArray
        (.branch (10 : Nat) ([] : List Nat) (.branch 11 [] .leafEmpty .leafSolid)
          (.branch 12 [] .leafEmpty .leafSolid))
      = { bt_abnNodes := [⟨10, [], .NODE_INDEX 1, .NODE_INDEX 2⟩,
            ⟨11, [], .LEAF_EMPTY, .LEAF_SOLID⟩, ⟨12, [], .LEAF_EMPTY, .LEAF_SOLID⟩],
          bt_pbnRoot := .NODE_INDEX 0 }
    ∧ (MoveNodesToArray
        (.branch (10 : Nat) ([] : List Nat) (.branch 11 [] .leafEmpty .leafSolid)
          (.branch 12 [] .leafEmpty .leafSolid))).bt_pbnRoot = .NODE_INDEX 0
    ∧ (MoveNodesToArray
        (.branch (10 : Nat) ([] : List Nat) (.branch 11 [] .leafEmpty .leafSolid)
          (.branch 12 [] .leafEmpty .leafSolid))).bt_abnNodes.length = 3 :=
  ⟨by decide,
    ((preorder_invariant
        (.branch (10 : Nat) ([] : List Nat) (.branch 11 [] .leafEmpty .leafSolid)
          (.branch 12 [] .leafEmpty .leafSolid))).1 _ _ _ _ rfl).1,
    (preorder_invariant
        (.branch (10 : Nat) ([] : List Nat) (.branch 11 [] .leafEmpty .leafSolid)
          (.branch 12 [] .leafEmpty .leafSolid))).2.2⟩

end BSP

/-! ## Expansion -/

section Expansion

variable {T : Type} [LinearOrderedField T] {iDimensions : Nat}

/-- Over exact (ordered field) arithmetic `Expand` grows the box symmetrically: for every
box `b` and every `ε`, after `b.Expand(ε)` each `Min(i)` is lower by `ε` and each `Max(i)`
is higher by `ε`, `Center` is unchanged and `Size` is larger by exactly `2ε` on every axis,
and for `ε >= 0` the expanded box contains the original (`operator>=`). -/
theorem expand_exact_of_field (b : AABBox T iDimensions) (tEpsilon : T) :
    (∀ i, (b.Expand tEpsilon).getMin i = b.getMin i - tEpsilon
        ∧ (b.Expand tEpsilon).getMax i = b.getMax i + tEpsilon)
    ∧ (b.Expand tEpsilon).Center = b.Center
    ∧ (∀ i, (b.Expand tEpsilon).Size i = b.Size i + 2 * tEpsilon)
    ∧ (0 ≤ tEpsilon → (b.Expand tEpsilon).operatorGe b = true) := by
  refine ⟨fun i => ⟨rfl, rfl⟩, ?_, ?_, ?_⟩
  · funext i
    simp only [AABBox.Center, AABBox.Expand]
    congr 1
    ring
  · intro i
    simp only [AABBox.Size, AABBox.Expand]
    ring
  · intro h
    unfold AABBox.operatorGe
    rw [operatorLe_iff]
    intro i
    simp only [AABBox.Expand]
    constructor <;> linarith

/-- Over 32-bit integers `Expand` grows the box symmetrically as long as nothing
overflows: when `Max(i) + ε`, `Min(i) - ε`, `Max(i) - Min(i)` and `Max(i) - Min(i) + 2ε`
fit on every axis, the values of `Min(i)` and `Max(i)` move by exactly `ε`, `Center` is
unchanged, the value of `Size(i)` grows by exactly `2ε`, and for `ε >= 0` the expanded box
contains the original. -/
theorem expand_exact_of_fits (b : AABBox INDEX iDimensions)
    (tEpsilon : INDEX)
    (hfit : ∀ i, INDEX.Fits ((b.maxvect i).val + tEpsilon.val)
      ∧ INDEX.Fits ((b.minvect i).val - tEpsilon.val)
      ∧ INDEX.Fits ((b.maxvect i).val - (b.minvect i).val)
      ∧ INDEX.Fits ((b.maxvect i).val - (b.minvect i).val + 2 * tEpsilon.val)) :
    (∀ i, ((b.Expand tEpsilon).getMin i).val = (b.getMin i).val - tEpsilon.val
        ∧ ((b.Expand tEpsilon).getMax i).val = (b.getMax i).val + tEpsilon.val)
    ∧ (b.Expand tEpsilon).Center = b.Center
    ∧ (∀ i, ((b.Expand tEpsilon).Size i).val = (b.Size i).val + 2 * tEpsilon.val)
    ∧ (0 ≤ tEpsilon → (b.Expand tEpsilon).operatorGe b = true) := by
  have hmin : ∀ i, ((b.Expand tEpsilon).minvect i).val
      = (b.minvect i).val - tEpsilon.val := fun i => by
    show (b.minvect i - tEpsilon).val = _
    rw [INDEX.val_sub, INDEX.val_wrap_of_fits (hfit i).2.1]
  have hmax : ∀ i, ((b.Expand tEpsilon).maxvect i).val
      = (b.maxvect i).val + tEpsilon.val := fun i => by
    show (b.maxvect i + tEpsilon).val = _
    rw [INDEX.val_add, INDEX.val_wrap_of_fits (hfit i).1]
  refine ⟨fun i => ⟨hmin i, hmax i⟩, ?_, ?_, ?_⟩
  · funext i
    have hsum : (b.Expand tEpsilon).maxvect i + (b.Expand tEpsilon).minvect i
        = b.maxvect i + b.minvect i := by
      apply INDEX.ext_val
      rw [INDEX.val_add, INDEX.val_add, hmin i, hmax i, INDEX.val_wrap, INDEX.val_wrap]
      omega
    show ((b.Expand tEpsilon).maxvect i + (b.Expand tEpsilon).minvect i) / 2
      = (b.maxvect i + b.minvect i) / 2
    rw [hsum]
  · intro i
    show ((b.Expand tEpsilon).maxvect i - (b.Expand tEpsilon).minvect i).val
      = (b.maxvect i - b.minvect i).val + 2 * tEpsilon.val
    rw [INDEX.val_sub, INDEX.val_sub, hmin i, hmax i,
      INDEX.val_wrap_of_fits (hfit i).2.2.1]
    have hfits := (hfit i).2.2.2
    rw [show (b.maxvect i).val + tEpsilon.val - ((b.minvect i).val - tEpsilon.val)
      = (b.maxvect i).val - (b.minvect i).val + 2 * tEpsilon.val by omega]
    exact INDEX.val_wrap_of_fits hfits
  · intro h
    have h0 : (0 : Int) ≤ tEpsilon.val := (INDEX.le_iff_val 0 tEpsilon).mp h
    unfold AABBox.operatorGe
    rw [operatorLe_iff]
    intro i
    rw [INDEX.le_iff_val, INDEX.le_iff_val, hmin i, hmax i]
    omega

end Expansion

/-! ## The persisted format -/

namespace BSP

section RoundTrip

variable {T : Type} {iDimensions : Nat}

theorem ok_bind {ε α β : Type} (a : α) (f : α → Except ε β) :
    (Except.ok a >>= f) = f a := rfl

theorem pure_eq_ok {ε α : Type} (a : α) : (pure a : Except ε α) = Except.ok a := rfl

theorem readList_writeList {α : Type} (writeOne : α → CTStream T)
    (readOne : CTStream T → Except StreamError (α × CTStream T)) (xs : List α)
    (hone : ∀ x, x ∈ xs → ∀ rest, readOne (writeOne x ++ rest) = .ok (x, rest))
    (rest : CTStream T) :
    readList readOne xs.length (writeList writeOne xs ++ rest) = .ok (xs, rest) := by
  induction xs with
  | nil => rfl
  | cons x xs ih =>
    have hx := hone x (List.mem_cons_self x xs) (writeList writeOne xs ++ rest)
    have hxs := ih (fun y hy => hone y (List.mem_cons_of_mem x hy))
    simp only [List.length_cons, readList, writeList, List.append_assoc, hx, hxs,
      ok_bind, pure_eq_ok]

theorem readVector_writeVector (v : Vector T iDimensions) (rest : CTStream T) :
    readVector iDimensions (writeVector v ++ rest) = .ok (v, rest) := by
  induction iDimensions with
  | zero =>
    simp only [readVector, writeVector, List.ofFn_zero, List.map_nil, List.nil_append]
    congr
    funext i
    exact i.elim0
  | succ n ih =>
    have htail := ih (fun i => v i.succ)
    simp only [writeVector] at htail
    simp only [readVector, writeVector, List.ofFn_succ, List.map_cons, List.cons_append,
      readScalar, htail, ok_bind, pure_eq_ok]
    congr
    funext i
    refine Fin.cases ?_ (fun j => ?_) i
    · rfl
    · rfl

theorem readPlane_writePlane (pl : Plane T iDimensions) (rest : CTStream T) :
    readPlane iDimensions (writePlane pl ++ rest) = .ok (pl, rest) := by
  simp only [readPlane, writePlane, List.append_assoc, readVector_writeVector,
    List.singleton_append, readScalar, ok_bind, pure_eq_ok]

theorem readPolygon_writePolygon (po : BSPPolygon T iDimensions) (rest : CTStream T) :
    readPolygon iDimensions (writePolygon po ++ rest) = .ok (po, rest) := by
  simp only [readPolygon, writePolygon, List.cons_append, readIndex, ok_bind]
  exact readList_writeList writeVector (readVector iDimensions) po
    (fun v _ r => readVector_writeVector v r) rest

theorem readRef_writeRef (r : NodeRef) (iNode ctNodes : Nat)
    (hr : ∀ j, r = .NODE_INDEX j → iNode < j ∧ j < ctNodes) (rest : CTStream T) :
    readRef iNode ctNodes (writeRef r ++ rest) = .ok (r, rest) := by
  cases r with
  | LEAF_EMPTY => rfl
  | LEAF_SOLID => rfl
  | NODE_INDEX j =>
    have hj := hr j rfl
    simp [readRef, writeRef, readIndex, hj.1, hj.2, ok_bind, pure_eq_ok]

theorem readNode_writeNode
    (bn : ArrayNode (Plane T iDimensions) (BSPPolygon T iDimensions)) (iNode ctNodes : Nat)
    (hbn : ForwardRefs bn iNode ctNodes) (rest : CTStream T) :
    readNode iDimensions iNode ctNodes (writeNode bn ++ rest) = .ok (bn, rest) := by
  have hfront := readRef_writeRef (T := T) bn.front iNode ctNodes
    (fun j hj => hbn j (Or.inl hj))
  have hback := readRef_writeRef (T := T) bn.back iNode ctNodes
    (fun j hj => hbn j (Or.inr hj))
  have hpolys := readList_writeList writePolygon (readPolygon iDimensions)
    bn.coplanarPolygons (fun po _ r => readPolygon_writePolygon po r)
  simp only [readNode, writeNode, List.append_assoc, readPlane_writePlane,
    List.cons_append, readIndex, hpolys, hfront, hback, ok_bind, pure_eq_ok]

theorem readNodes_writeNodes
    (bns : List (ArrayNode (Plane T iDimensions) (BSPPolygon T iDimensions)))
    (iNode ctNodes : Nat)
    (hbns : ∀ k bn, bns[k]? = some bn → ForwardRefs bn (iNode + k) ctNodes)
    (rest : CTStream T) :
    readNodes iDimensions ctNodes bns.length iNode (writeList writeNode bns ++ rest)
      = .ok (bns, rest) := by
  induction bns generalizing iNode with
  | nil => rfl
  | cons bn bns ih =>
    have hhead := readNode_writeNode bn iNode ctNodes (hbns 0 bn (by simp))
      (writeList writeNode bns ++ rest)
    have htail := ih (iNode + 1) (fun k bn' hk => by
      have := hbns (k + 1) bn' (by simpa using hk)
      rwa [show iNode + (k + 1) = iNode + 1 + k by omega] at this)
    simp only [List.length_cons, readNodes, writeList, List.append_assoc, hhead, htail,
      ok_bind, pure_eq_ok]

/-- C11: the serialization round trip. For every compacted tree `T` (root at index 0, all
child references forward and inside the array), reading with `Read_t` what `Write_t` wrote
for `T` succeeds, consumes the whole stream and yields a tree equal to `T`: same node
count, plane coefficients, polygons and child reference structure. -/
theorem read_write_round_trip
    (tree : BSPTree (Plane T iDimensions) (BSPPolygon T iDimensions))
    (hcompact : Compacted tree) :
    Read_t iDimensions (Write_t tree) = .ok (tree, []) := by
  obtain ⟨abnNodes, pbnRoot⟩ := tree
  obtain ⟨hroot, hnodes⟩ := hcompact
  simp only at hroot hnodes
  subst hroot
  have h := readNodes_writeNodes abnNodes 0 abnNodes.length
    (fun k bn hk => by simpa using hnodes k bn hk) []
  rw [List.append_nil] at h
  simp only [Read_t, Write_t, readIndex, h, ok_bind, pure_eq_ok]

/-- What `MoveNodesToArray` leaves for a root node is a compacted tree. -/
theorem Compacted_MoveNodesToArray {Plane Polygon : Type} (plane : Plane)
    (polys : List Polygon) (front back : BSPNode Plane Polygon) :
    Compacted (MoveNodesToArray (.branch plane polys front back)) := by
  have hmove : MoveNodesToArray (.branch plane polys front back)
      = { bt_abnNodes := preorder (.branch plane polys front back) 0,
          bt_pbnRoot := .NODE_INDEX 0 } := by
    simp [MoveNodesToArray, MoveSubTreeToArray_eq, refOf]
  rw [hmove]
  refine ⟨rfl, fun i bn hbn j hj => ?_⟩
  have := preorder_forward (.branch plane polys front back) 0 i bn hbn j hj
  simp only [length_preorder]
  omega

/-- C11, at a concrete input: a root with one child node in two dimensions, the root
carrying one triangle. The stream holds the node count, then per node the plane, the
polygons and the two tagged references. -/
theorem read_write_round_trip_witness :
    Compacted (MoveNodesToArray
      (.branch (⟨![1, 0], 2⟩ : Plane Int 2) [[![2, 0], ![2, 1], ![2, 5]]] .leafEmpty
        (.branch ⟨![0, 1], 3⟩ [] .leafEmpty .leafSolid)))
    ∧ Write_t (MoveNodesToArray
        (.branch (⟨![1, 0], 2⟩ : Plane Int 2) [[![2, 0], ![2, 1], ![2, 5]]] .leafEmpty
          (.branch ⟨![0, 1], 3⟩ [] .leafEmpty .leafSolid)))
      = [.index 2,
          .scalar 1, .scalar 0, .scalar 2, .index 1, .index 3, .scalar 2, .scalar 0,
          .scalar 2, .scalar 1, .scalar 2, .scalar 5, .index 0, .index 2, .index 1,
          .scalar 0, .scalar 1, .scalar 3, .index 0, .index 0, .index 1]
    ∧ Read_t 2 (Write_t (MoveNodesToArray
        (.branch (⟨![1, 0], 2⟩ : Plane Int 2) [[![2, 0], ![2, 1], ![2, 5]]] .leafEmpty
          (.branch ⟨![0, 1], 3⟩ [] .leafEmpty .leafSolid))))
      = .ok (MoveNodesToArray
        (.branch (⟨![1, 0], 2⟩ : Plane Int 2) [[![2, 0], ![2, 1], ![2, 5]]] .leafEmpty
          (.branch ⟨![0, 1], 3⟩ [] .leafEmpty .leafSolid)), []) :=
  ⟨Compacted_MoveNodesToArray _ _ _ _, by decide,
    read_write_round_trip _ (Compacted_MoveNodesToArray _ _ _ _)⟩

end RoundTrip

end BSP

/-! ## Line clipping -/

namespace BSP

section LineClip

variable {T : Type} [LinearOrderedField T] {iDimensions : Nat} {Polygon : Type}

/-- Along the segment the distance to a plane is an affine function of the parameter. -/
theorem PointDistance_LinePoint (pl : Plane T iDimensions) (v0 v1 : Vector T iDimensions)
    (t : T) :
    pl.PointDistance (LinePoint v0 v1 t)
      = pl.PointDistance v0 + t * (pl.PointDistance v1 - pl.PointDistance v0) := by
  have hterm : ∀ i, pl.normal i * (v0 i + t * (v1 i - v0 i))
      = pl.normal i * v0 i + (t * (pl.normal i * v1 i) - t * (pl.normal i * v0 i)) := by
    intro i
    ring
  simp only [Plane.PointDistance, LinePoint, hterm, Finset.sum_add_distrib,
    Finset.sum_sub_distrib, ← Finset.mul_sum]
  ring

theorem not_Inside_empty (abnNodes : List (ArrayNode (Plane T iDimensions) Polygon))
    (p : Vector T iDimensions) : ¬ Inside abnNodes .LEAF_EMPTY p := by
  intro h
  cases h

theorem not_Inside_of_none (abnNodes : List (ArrayNode (Plane T iDimensions) Polygon))
    (i : Nat) (hnone : abnNodes[i]? = none) (p : Vector T iDimensions) :
    ¬ Inside abnNodes (.NODE_INDEX i) p := by
  intro h
  cases h with
  | front _ bn _ hbn _ _ => rw [hnone] at hbn; cases hbn
  | back _ bn _ hbn _ _ => rw [hnone] at hbn; cases hbn

theorem Inside_index_iff (abnNodes : List (ArrayNode (Plane T iDimensions) Polygon))
    (i : Nat) (bn : ArrayNode (Plane T iDimensions) Polygon)
    (hbn : abnNodes[i]? = some bn) (p : Vector T iDimensions) :
    Inside abnNodes (.NODE_INDEX i) p ↔
      (0 ≤ bn.plane.PointDistance p ∧ Inside abnNodes bn.front p)
      ∨ (bn.plane.PointDistance p ≤ 0 ∧ Inside abnNodes bn.back p) := by
  constructor
  · intro h
    cases h with
    | front _ bn' _ hbn' hd hin =>
      rw [hbn] at hbn'
      cases hbn'
      exact Or.inl ⟨hd, hin⟩
    | back _ bn' _ hbn' hd hin =>
      rw [hbn] at hbn'
      cases hbn'
      exact Or.inr ⟨hd, hin⟩
  · rintro (⟨hd, hin⟩ | ⟨hd, hin⟩)
    · exact Inside.front i bn p hbn hd hin
    · exact Inside.back i bn p hbn hd hin

theorem IsHull_congr {S S' : T → Prop} (h : ∀ t, S t ↔ S' t) (r : Option (T × T))
    (hr : IsHull S r) : IsHull S' r := by
  have hS : S = S' := funext fun t => propext (h t)
  rw [← hS]
  exact hr

theorem IsHull_union {S S' : T → Prop} (r r' : Option (T × T))
    (hr : IsHull S r) (hr' : IsHull S' r') :
    IsHull (fun t => S t ∨ S' t) (unionIntervals r r') := by
  cases r with
  | none =>
    refine IsHull_congr (fun t => ?_) r' hr'
    have := hr t
    tauto
  | some ab =>
    obtain ⟨a, b⟩ := ab
    cases r' with
    | none =>
      refine IsHull_congr (fun t => ?_) (some (a, b)) hr
      have := hr' t
      tauto
    | some cd =>
      obtain ⟨c, d⟩ := cd
      obtain ⟨ha, hb, hall⟩ := hr
      obtain ⟨hc, hd, hall'⟩ := hr'
      simp only [unionIntervals, IsHull, Min_eq_min, Max_eq_max]
      refine ⟨?_, ?_, ?_⟩
      · rcases min_choice a c with h | h
        · rw [h]; exact Or.inl ha
        · rw [h]; exact Or.inr hc
      · rcases max_choice b d with h | h
        · rw [h]; exact Or.inl hb
        · rw [h]; exact Or.inr hd
      · rintro t (ht | ht)
        · exact ⟨le_trans (min_le_left _ _) (hall t ht).1,
            le_trans (hall t ht).2 (le_max_left _ _)⟩
        · exact ⟨le_trans (min_le_right _ _) (hall' t ht).1,
            le_trans (hall' t ht).2 (le_max_right _ _)⟩

/-- Where the distance decreases along the segment, the front side is the part of the
parameters up to the crossing and the back side the part from the crossing on. -/
theorem crossing_of_decreasing {d0 d1 : T} (h : d1 < d0) (t : T) :
    (0 ≤ d0 + t * (d1 - d0) ↔ t ≤ d0 / (d0 - d1))
    ∧ (d0 + t * (d1 - d0) ≤ 0 ↔ d0 / (d0 - d1) ≤ t) := by
  have hD : 0 < d0 - d1 := sub_pos.mpr h
  rw [le_div_iff₀ hD, div_le_iff₀ hD]
  constructor <;> constructor <;> intro h' <;> linarith

/-- Where the distance increases along the segment, the front side is the part of the
parameters from the crossing on and the back side the part up to the crossing. -/
theorem crossing_of_increasing {d0 d1 : T} (h : d0 < d1) (t : T) :
    (0 ≤ d0 + t * (d1 - d0) ↔ d0 / (d0 - d1) ≤ t)
    ∧ (d0 + t * (d1 - d0) ≤ 0 ↔ t ≤ d0 / (d0 - d1)) := by
  have hD : d0 - d1 < 0 := sub_neg.mpr h
  rw [div_le_iff_of_neg hD, le_div_iff_of_neg hD]
  constructor <;> constructor <;> intro h' <;> linarith

theorem FindLineMinMaxNode_leaf_empty
    (abnNodes : List (ArrayNode (Plane T iDimensions) Polygon))
    (v0 v1 : Vector T iDimensions) (depth : Nat) (t0 t1 : T) :
    IsHull (fun t => t0 ≤ t ∧ t ≤ t1 ∧ Inside abnNodes .LEAF_EMPTY (LinePoint v0 v1 t))
      (FindLineMinMaxNode abnNodes v0 v1 depth .LEAF_EMPTY t0 t1) := by
  have hnone : FindLineMinMaxNode abnNodes v0 v1 depth .LEAF_EMPTY t0 t1 = none := by
    cases depth <;> rfl
  rw [hnone]
  intro t ht
  exact not_Inside_empty abnNodes _ ht.2.2

theorem FindLineMinMaxNode_leaf_solid
    (abnNodes : List (ArrayNode (Plane T iDimensions) Polygon))
    (v0 v1 : Vector T iDimensions) (depth : Nat) (t0 t1 : T) :
    IsHull (fun t => t0 ≤ t ∧ t ≤ t1 ∧ Inside abnNodes .LEAF_SOLID (LinePoint v0 v1 t))
      (FindLineMinMaxNode abnNodes v0 v1 depth .LEAF_SOLID t0 t1) := by
  have hval : FindLineMinMaxNode abnNodes v0 v1 depth .LEAF_SOLID t0 t1
      = if t0 ≤ t1 then some (t0, t1) else none := by
    cases depth <;> rfl
  rw [hval]
  split_ifs with h
  · exact ⟨⟨le_refl _, h, Inside.solid _⟩, ⟨h, le_refl _, Inside.solid _⟩,
      fun t ht => ⟨ht.1, ht.2.1⟩⟩
  · intro t ht
    exact h (le_trans ht.1 ht.2.1)

theorem FindLineMinMaxNode_dangling
    (abnNodes : List (ArrayNode (Plane T iDimensions) Polygon))
    (v0 v1 : Vector T iDimensions) (depth i : Nat) (hnone : abnNodes[i]? = none)
    (t0 t1 : T) :
    IsHull (fun t => t0 ≤ t ∧ t ≤ t1 ∧ Inside abnNodes (.NODE_INDEX i) (LinePoint v0 v1 t))
      (FindLineMinMaxNode abnNodes v0 v1 depth (.NODE_INDEX i) t0 t1) := by
  have hval : FindLineMinMaxNode abnNodes v0 v1 depth (.NODE_INDEX i) t0 t1 = none := by
    cases depth with
    | zero => rfl
    | succ depth => simp only [FindLineMinMaxNode, hnone]
  rw [hval]
  intro t ht
  exact not_Inside_of_none abnNodes i hnone _ ht.2.2

/-- The recursive step returns the hull of the parameters of its part of the segment whose
points are inside the subtree, provided the depth bound covers the nodes from the
reference to the end of the array. -/
theorem FindLineMinMaxNode_hull
    (abnNodes : List (ArrayNode (Plane T iDimensions) Polygon))
    (hfwd : ∀ i bn, abnNodes[i]? = some bn → ForwardRefs bn i abnNodes.length)
    (v0 v1 : Vector T iDimensions) (depth : Nat) :
    ∀ (ref : NodeRef) (t0 t1 : T),
      (∀ i, ref = .NODE_INDEX i → abnNodes.length ≤ i + depth) →
      IsHull (fun t => t0 ≤ t ∧ t ≤ t1 ∧ Inside abnNodes ref (LinePoint v0 v1 t))
        (FindLineMinMaxNode abnNodes v0 v1 depth ref t0 t1) := by
  induction depth with
  | zero =>
    intro ref t0 t1 href
    cases ref with
    | LEAF_EMPTY => exact FindLineMinMaxNode_leaf_empty abnNodes v0 v1 0 t0 t1
    | LEAF_SOLID => exact FindLineMinMaxNode_leaf_solid abnNodes v0 v1 0 t0 t1
    | NODE_INDEX i =>
      have hlen := href i rfl
      exact FindLineMinMaxNode_dangling abnNodes v0 v1 0 i
        (List.getElem?_eq_none (by omega)) t0 t1
  | succ depth ih =>
    intro ref t0 t1 href
    cases ref with
    | LEAF_EMPTY => exact FindLineMinMaxNode_leaf_empty abnNodes v0 v1 _ t0 t1
    | LEAF_SOLID => exact FindLineMinMaxNode_leaf_solid abnNodes v0 v1 _ t0 t1
    | NODE_INDEX i =>
      cases hbn : abnNodes[i]? with
      | none => exact FindLineMinMaxNode_dangling abnNodes v0 v1 _ i hbn t0 t1
      | some bn =>
        have hlen := href i rfl
        have hF : ∀ a b : T,
            IsHull (fun t => a ≤ t ∧ t ≤ b ∧ Inside abnNodes bn.front (LinePoint v0 v1 t))
              (FindLineMinMaxNode abnNodes v0 v1 depth bn.front a b) := fun a b =>
          ih bn.front a b (fun j hj => by
            have := (hfwd i bn hbn j (Or.inl hj)).1
            omega)
        have hB : ∀ a b : T,
            IsHull (fun t => a ≤ t ∧ t ≤ b ∧ Inside abnNodes bn.back (LinePoint v0 v1 t))
              (FindLineMinMaxNode abnNodes v0 v1 depth bn.back a b) := fun a b =>
          ih bn.back a b (fun j hj => by
            have := (hfwd i bn hbn j (Or.inr hj)).1
            omega)
        have hins := fun t => Inside_index_iff abnNodes i bn hbn (LinePoint v0 v1 t)
        have hdist := fun t => PointDistance_LinePoint bn.plane v0 v1 t
        simp only [FindLineMinMaxNode, hbn]
        split_ifs with hpar hpos hneg hdec
        · refine IsHull_congr (fun t => ?_) _ (hF t0 t1)
          have hd : bn.plane.PointDistance (LinePoint v0 v1 t)
              = bn.plane.PointDistance v0 := by rw [hdist t, ← hpar]; ring
          rw [hins t, hd]
          have h1 : ¬ bn.plane.PointDistance v0 ≤ 0 := not_le.mpr hpos
          have h2 : 0 ≤ bn.plane.PointDistance v0 := le_of_lt hpos
          tauto
        · refine IsHull_congr (fun t => ?_) _ (hB t0 t1)
          have hd : bn.plane.PointDistance (LinePoint v0 v1 t)
              = bn.plane.PointDistance v0 := by rw [hdist t, ← hpar]; ring
          rw [hins t, hd]
          have h1 : ¬ 0 ≤ bn.plane.PointDistance v0 := not_le.mpr hneg
          have h2 : bn.plane.PointDistance v0 ≤ 0 := le_of_lt hneg
          tauto
        · refine IsHull_congr (fun t => ?_) _ (IsHull_union _ _ (hF t0 t1) (hB t0 t1))
          have hd : bn.plane.PointDistance (LinePoint v0 v1 t)
              = bn.plane.PointDistance v0 := by rw [hdist t, ← hpar]; ring
          rw [hins t, hd]
          have h1 : bn.plane.PointDistance v0 ≤ 0 := not_lt.mp hpos
          have h2 : 0 ≤ bn.plane.PointDistance v0 := not_lt.mp hneg
          tauto
        · refine IsHull_congr (fun t => ?_) _ (IsHull_union _ _ (hF _ _) (hB _ _))
          obtain ⟨hfront, hback⟩ := crossing_of_decreasing hdec t
          rw [hins t, hdist t, hfront, hback, Min_eq_min, Max_eq_max, le_min_iff, max_le_iff]
          tauto
        · have hinc : bn.plane.PointDistance v0 < bn.plane.PointDistance v1 :=
            lt_of_le_of_ne (not_lt.mp hdec) hpar
          refine IsHull_congr (fun t => ?_) _ (IsHull_union _ _ (hF _ _) (hB _ _))
          obtain ⟨hfront, hback⟩ := crossing_of_increasing hinc t
          rw [hins t, hdist t, hfront, hback, Min_eq_min, Max_eq_max, le_min_iff, max_le_iff]
          tauto

/-- The result of `FindLineMinMax` on a compacted tree: either nothing of the segment is
inside and the result is the empty interval `(1, 0)`, or the result is the hull of the
parameters in `[0,1]` whose points are inside. -/
theorem FindLineMinMax_hull (tree : BSPTree (Plane T iDimensions) Polygon)
    (hcompact : Compacted tree) (v0 v1 : Vector T iDimensions) :
    ((∀ t, ¬ (0 ≤ t ∧ t ≤ 1
          ∧ Inside tree.bt_abnNodes tree.bt_pbnRoot (LinePoint v0 v1 t)))
        ∧ FindLineMinMax tree v0 v1 = (1, 0))
    ∨ ∃ a b, IsHull (fun t => 0 ≤ t ∧ t ≤ 1
          ∧ Inside tree.bt_abnNodes tree.bt_pbnRoot (LinePoint v0 v1 t)) (some (a, b))
        ∧ FindLineMinMax tree v0 v1 = (a, b) := by
  have h := FindLineMinMaxNode_hull tree.bt_abnNodes hcompact.2 v0 v1
    tree.bt_abnNodes.length tree.bt_pbnRoot 0 1 (fun i _ => Nat.le_add_left _ _)
  unfold FindLineMinMax
  cases hres : FindLineMinMaxNode tree.bt_abnNodes v0 v1 tree.bt_abnNodes.length
      tree.bt_pbnRoot 0 1 with
  | none =>
    rw [hres] at h
    exact Or.inl ⟨h, rfl⟩
  | some ab =>
    obtain ⟨a, b⟩ := ab
    rw [hres] at h
    exact Or.inr ⟨a, b, h, rfl⟩

end LineClip

/-- C12, as stated, fails at its own example: for the BSP tree of the unit cube and the
segment from `(-2, 0.5, 0.5)` to `(2, 0.5, 0.5)`, `FindLineMinMax` returns `tMin = 0.5`,
not `0.25`. The point at `t = 0.25` is `(-1, 0.5, 0.5)`, outside the cube; the segment
enters the cube at `t = 0.5`, in the point `(0, 0.5, 0.5)`. -/
theorem findLineMinMax_unit_cube_not_quarter :
    FindLineMinMax (MoveNodesToArray unitCube) ![-2, 1 / 2, 1 / 2] ![2, 1 / 2, 1 / 2]
      = (1 / 2, 3 / 4)
    ∧ FindLineMinMax (MoveNodesToArray unitCube) ![-2, 1 / 2, 1 / 2] ![2, 1 / 2, 1 / 2]
      ≠ (1 / 4, 3 / 4)
    ∧ LinePoint ![-2, 1 / 2, 1 / 2] ![2, 1 / 2, 1 / 2] (1 / 4 : Rat) = ![-1, 1 / 2, 1 / 2]
    ∧ LinePoint ![-2, 1 / 2, 1 / 2] ![2, 1 / 2, 1 / 2] (1 / 2 : Rat) = ![0, 1 / 2, 1 / 2] :=
  ⟨by decide!, by decide!, by decide!, by decide!⟩

/-- C12, amended: line clipping against the solid. For the BSP tree of the unit cube
`[0,1]^3` and the segment from `(-2, 0.5, 0.5)` to `(2, 0.5, 0.5)`, `FindLineMinMax`
returns `tMin = 0.5` and `tMax = 0.75`. In general, for every compacted tree and every
segment, `tMin` and `tMax` are the smallest and largest parameters `t` in `[0,1]` for
which `v0 + t*(v1 - v0)` lies inside the solid (boundary included): every such parameter
lies between them and, when there is one, `tMin` and `tMax` are such parameters
themselves; when no part of the segment is inside, `tMin > tMax`. -/
theorem findLineMinMax_clips_segment :
    FindLineMinMax (MoveNodesToArray unitCube) ![-2, 1 / 2, 1 / 2] ![2, 1 / 2, 1 / 2]
      = (1 / 2, 3 / 4)
    ∧ ∀ (T : Type) [LinearOrderedField T] (iDimensions : Nat) (Polygon : Type)
        (tree : BSPTree (Plane T iDimensions) Polygon), Compacted tree →
        ∀ v0 v1 : Vector T iDimensions,
          (∀ t, 0 ≤ t → t ≤ 1 →
              Inside tree.bt_abnNodes tree.bt_pbnRoot (LinePoint v0 v1 t) →
              (FindLineMinMax tree v0 v1).1 ≤ t ∧ t ≤ (FindLineMinMax tree v0 v1).2)
          ∧ ((∃ t, 0 ≤ t ∧ t ≤ 1
                ∧ Inside tree.bt_abnNodes tree.bt_pbnRoot (LinePoint v0 v1 t)) →
              (0 ≤ (FindLineMinMax tree v0 v1).1 ∧ (FindLineMinMax tree v0 v1).1 ≤ 1
                ∧ Inside tree.bt_abnNodes tree.bt_pbnRoot
                    (LinePoint v0 v1 (FindLineMinMax tree v0 v1).1))
              ∧ (0 ≤ (FindLineMinMax tree v0 v1).2 ∧ (FindLineMinMax tree v0 v1).2 ≤ 1
                ∧ Inside tree.bt_abnNodes tree.bt_pbnRoot
                    (LinePoint v0 v1 (FindLineMinMax tree v0 v1).2)))
          ∧ ((¬ ∃ t, 0 ≤ t ∧ t ≤ 1
                ∧ Inside tree.bt_abnNodes tree.bt_pbnRoot (LinePoint v0 v1 t)) →
              (FindLineMinMax tree v0 v1).2 < (FindLineMinMax tree v0 v1).1) := by
  refine ⟨by decide!, ?_⟩
  intro T _ iDimensions Polygon tree hcompact v0 v1
  rcases FindLineMinMax_hull tree hcompact v0 v1 with ⟨hnone, hval⟩ | ⟨a, b, hhull, hval⟩
  · rw [hval]
    refine ⟨fun t h0 h1 hin => absurd ⟨h0, h1, hin⟩ (hnone t), ?_, fun _ => zero_lt_one⟩
    rintro ⟨t, ht⟩
    exact absurd ht (hnone t)
  · rw [hval]
    obtain ⟨ha, hb, hall⟩ := hhull
    exact ⟨fun t h0 h1 hin => hall t ⟨h0, h1, hin⟩, fun _ => ⟨ha, hb⟩,
      fun hno => absurd ⟨a, ha⟩ hno⟩

/-- C12 amended, at a concrete input: the tree of the unit cube is compacted, and for the
segment from the centre `(0.5, 0.5, 0.5)` to `(0.5, 0.5, 3)` every parameter whose point
is inside lies between the returned `tMin = 0` and `tMax = 0.2`. -/
theorem findLineMinMax_clips_segment_witness :
    Compacted (MoveNodesToArray unitCube)
    ∧ FindLineMinMax (MoveNodesToArray unitCube) ![1 / 2, 1 / 2, 1 / 2] ![1 / 2, 1 / 2, 3]
      = (0, 1 / 5)
    ∧ ∀ t : Rat, 0 ≤ t → t ≤ 1 →
        Inside (MoveNodesToArray unitCube).bt_abnNodes (MoveNodesToArray unitCube).bt_pbnRoot
          (LinePoint ![1 / 2, 1 / 2, 1 / 2] ![1 / 2, 1 / 2, 3] t) →
        (FindLineMinMax (MoveNodesToArray unitCube) ![1 / 2, 1 / 2, 1 / 2]
            ![1 / 2, 1 / 2, 3]).1 ≤ t
        ∧ t ≤ (FindLineMinMax (MoveNodesToArray unitCube) ![1 / 2, 1 / 2, 1 / 2]
            ![1 / 2, 1 / 2, 3]).2 :=
  ⟨Compacted_MoveNodesToArray _ _ _ _, by decide!,
    (findLineMinMax_clips_segment.2 Rat 3 (BSPPolygon Rat 3) (MoveNodesToArray unitCube)
      (Compacted_MoveNodesToArray _ _ _ _) ![1 / 2, 1 / 2, 1 / 2] ![1 / 2, 1 / 2, 3]).1⟩

end BSP

end SeriousEngine
